import Mathlib

/-!
Verification development for the remote-brain repository: the Host-side
streaming relay (src/apps/host/src/relay/relay.ts), the concurrency gate
(src/apps/host/src/concurrency/gate.ts), the newline-delimited codec
(packages/protocol ndjson), the message validator
(src/packages/protocol/src/validate.ts), the connection supervisor
(src/apps/host/src/server/swarm.ts) and the client protocol driver
(ProtocolClient, bundled in src/apps/client/src/utils/inputValidation.ts).

JavaScript strings are modelled as lists of Unicode scalar values
(`List Char`).  The JavaScript `.length` of a string counts UTF-16 code
units, which is `jsLength` below (2 for supplementary-plane characters,
1 otherwise); the UTF-8 byte length of the same string is `utf8Length`.
The distinction matters: several size checks in the source use `.length`.
-/

/-- UTF-16 code units used by one Unicode scalar value (JS string `.length`
counts these). -/
def utf16Units (c : Char) : Nat :=
  if c.toNat < 0x10000 then 1 else 2

/-- JavaScript `.length` of a string: total UTF-16 code units. -/
def jsLength (s : List Char) : Nat :=
  (s.map utf16Units).sum

/-- UTF-8 bytes used by one Unicode scalar value. -/
def utf8Bytes (c : Char) : Nat :=
  if c.toNat < 0x80 then 1
  else if c.toNat < 0x800 then 2
  else if c.toNat < 0x10000 then 3
  else 4

/-- UTF-8 byte length of a string. -/
def utf8Length (s : List Char) : Nat :=
  (s.map utf8Bytes).sum

theorem jsLength_append (a b : List Char) :
    jsLength (a ++ b) = jsLength a + jsLength b := by
  simp [jsLength]

theorem jsLength_replicate (n : Nat) (c : Char) :
    jsLength (List.replicate n c) = n * utf16Units c := by
  simp [jsLength, List.map_replicate, List.sum_replicate, Nat.smul_one_eq_cast]

theorem utf8Length_replicate (n : Nat) (c : Char) :
    utf8Length (List.replicate n c) = n * utf8Bytes c := by
  simp [utf8Length, List.map_replicate, List.sum_replicate, Nat.smul_one_eq_cast]

/-! ## Concurrency gate — src/apps/host/src/concurrency/gate.ts -/

/-- State of the Host's global concurrency gate (`ConcurrencyGate`):
`activeRequestId` is `null` (`none`) or the id of the single active request. -/
structure ConcurrencyGate where
  activeRequestId : Option String
deriving DecidableEq, Repr

/-- `ConcurrencyGate.acquire`: if the slot is occupied return `false`
(state unchanged); otherwise store the id and return `true`. -/
def ConcurrencyGate.acquire (g : ConcurrencyGate) (requestId : String) :
    ConcurrencyGate × Bool :=
  match g.activeRequestId with
  | some _ => (g, false)
  | none => (⟨some requestId⟩, true)

/-- `ConcurrencyGate.release`: clear the slot only when it holds exactly
this id; otherwise a no-op. -/
def ConcurrencyGate.release (g : ConcurrencyGate) (requestId : String) :
    ConcurrencyGate :=
  if g.activeRequestId = some requestId then ⟨none⟩ else g

/-- `ConcurrencyGate.isBusy`. -/
def ConcurrencyGate.isBusy (g : ConcurrencyGate) : Bool :=
  g.activeRequestId.isSome

/-- `ConcurrencyGate.getActiveRequest`. -/
def ConcurrencyGate.getActiveRequest (g : ConcurrencyGate) : Option String :=
  g.activeRequestId

/-- `ConcurrencyGate.forceRelease`. -/
def ConcurrencyGate.forceRelease (_g : ConcurrencyGate) : ConcurrencyGate :=
  ⟨none⟩

/-! ## Error codes and outbound frames — packages/protocol errors.ts -/

/-- The closed error-code taxonomy of `ErrorCode` in errors.ts. -/
inductive ErrorCode
  | INVALID_SERVER_ID
  | CONNECT_FAILED
  | HOST_OFFLINE
  | HOST_DISCONNECTED
  | USER_DISCONNECTED
  | OLLAMA_NOT_FOUND
  | OLLAMA_MODEL_NOT_AVAILABLE
  | MODEL_BUSY
  | GENERATION_FAILED
  | GENERATION_ABORTED
  | BAD_MESSAGE
  | UNSUPPORTED_VERSION
  | TIMEOUT_NO_RESPONSE
deriving DecidableEq, Repr

/-- An outbound frame written by the Host to a peer socket.  `error`
frames mirror `createErrorMessage` (optional `request_id`). -/
inductive Frame
  | serverInfo (hostName model status : String)
  | chatChunk (requestId : String) (text : List Char)
  | chatEnd (requestId : String) (finishReason : String)
  | error (code : ErrorCode) (message : String) (requestId : Option String)
deriving DecidableEq, Repr

/-! ## Host relay — src/apps/host/src/relay/relay.ts

The relay is modelled as a state machine.  Sockets are identified by
naturals.  `socketMap` models the `Map<Duplex, string>` of the relay;
`controllers` models the key set of `OllamaAdapter.abortControllers`
(src/unnamed/part_006): a request id is present exactly while a generation
for it is in flight.  Each inbound message handler and each provider
callback runs synchronously to completion on the JavaScript event loop,
so each is one atomic step. -/

structure RelayState where
  gate : ConcurrencyGate
  socketMap : List (Nat × String)
  controllers : List String
deriving DecidableEq, Repr

/-- `Map.get` on the socket map. -/
def mapGet (m : List (Nat × String)) (k : Nat) : Option String :=
  match m with
  | [] => none
  | (k1, v1) :: rest => if k1 = k then some v1 else mapGet rest k

/-- `Map.set` on the socket map (replace or append). -/
def mapSet (m : List (Nat × String)) (k : Nat) (v : String) :
    List (Nat × String) :=
  match m with
  | [] => [(k, v)]
  | (k1, v1) :: rest =>
    if k1 = k then (k, v) :: rest else (k1, v1) :: mapSet rest k v

/-- `Map.delete` on the socket map. -/
def mapDelete (m : List (Nat × String)) (k : Nat) : List (Nat × String) :=
  match m with
  | [] => []
  | (k1, v1) :: rest =>
    if k1 = k then rest else (k1, v1) :: mapDelete rest k

/-- Key set insert for `abortControllers` (`Map.set` keyed by request id). -/
def ctlInsert (l : List String) (r : String) : List String :=
  if l.contains r then l else r :: l

/-- Events driving the relay: validated inbound client messages
(`chat_start`, `abort`), provider callbacks for an in-flight generation
(`onChunk`, `onEnd`, `onError`, each bound to the socket captured by the
closure in `handleChatStart`), and transport disconnection. -/
inductive REvent
  | chatStart (socket : Nat) (requestId : String) (prompt : List Char)
  | abortMsg (socket : Nat) (requestId : String)
  | provChunk (socket : Nat) (requestId : String) (text : List Char)
  | provEnd (socket : Nat) (requestId : String)
  | provError (socket : Nat) (requestId : String) (code : ErrorCode)
      (message : String)
  | disconnect (socket : Nat)
deriving DecidableEq, Repr

/-- A provider callback for request `r` on socket `s` can only fire while
the generation started by that socket is in flight: the adapter's
`generate` loop delivers callbacks sequentially and stops delivering once
the request's abort controller has been deleted (end, error or abort),
per the structure of `OllamaAdapter.generate`. -/
def REvent.enabled (e : REvent) (st : RelayState) : Bool :=
  match e with
  | .provChunk s r _ => mapGet st.socketMap s = some r && st.controllers.contains r
  | .provEnd s r => mapGet st.socketMap s = some r && st.controllers.contains r
  | .provError s r _ _ => mapGet st.socketMap s = some r && st.controllers.contains r
  | _ => true

/-- `StreamingRelay.handleChatStart` (relay.ts lines 132-220): reject an
oversize prompt with `BAD_MESSAGE` (the check is `payload.prompt.length >
8192`, i.e. UTF-16 code units) without touching the gate; otherwise try
`gate.acquire`, answering `MODEL_BUSY` on failure; on success record the
request for the socket and start generation (the adapter registers the
abort controller). -/
def handleChatStart (st : RelayState) (s : Nat) (r : String)
    (prompt : List Char) : RelayState × List (Nat × Frame) :=
  if jsLength prompt > 8192 then
    (st, [(s, .error .BAD_MESSAGE "Prompt exceeds maximum size of 8 KB" (some r))])
  else
    match st.gate.acquire r with
    | (g2, true) =>
      ({ gate := g2, socketMap := mapSet st.socketMap s r,
         controllers := ctlInsert st.controllers r }, [])
    | (_, false) =>
      (st, [(s, .error .MODEL_BUSY "Host is processing another request" (some r))])

/-- `StreamingRelay.handleAbort` (relay.ts lines 225-246): if the socket's
active request matches, call `ollama.abort` (true exactly when the abort
controller is registered); on confirmation release the gate, drop the
socket-map entry and write `chat_end` with finish reason `abort`. -/
def handleAbort (st : RelayState) (s : Nat) (r : String) :
    RelayState × List (Nat × Frame) :=
  if mapGet st.socketMap s = some r then
    if st.controllers.contains r then
      ({ gate := st.gate.release r, socketMap := mapDelete st.socketMap s,
         controllers := st.controllers.erase r },
       [(s, .chatEnd r "abort")])
    else (st, [])
  else (st, [])

/-- `StreamingRelay.handleDisconnection` (relay.ts lines 65-74): abort the
socket's in-flight generation if any, release the gate, drop the entry;
no frames are written. -/
def handleDisconnection (st : RelayState) (s : Nat) :
    RelayState × List (Nat × Frame) :=
  match mapGet st.socketMap s with
  | some r =>
    ({ gate := st.gate.release r, socketMap := mapDelete st.socketMap s,
       controllers := st.controllers.erase r }, [])
  | none => (st, [])

/-- One atomic relay step.  Provider callbacks translate the `sink` built
in `handleChatStart`: `onChunk` writes a `chat_chunk`; `onEnd` writes
`chat_end(stop)` then releases the gate and clears the entry; `onError`
writes the request-scoped `error` then releases and clears. -/
def relayStep (st : RelayState) : REvent → RelayState × List (Nat × Frame)
  | .chatStart s r p => handleChatStart st s r p
  | .abortMsg s r => handleAbort st s r
  | .provChunk s r text => (st, [(s, .chatChunk r text)])
  | .provEnd s r =>
    ({ gate := st.gate.release r, socketMap := mapDelete st.socketMap s,
       controllers := st.controllers.erase r },
     [(s, .chatEnd r "stop")])
  | .provError s r code msg =>
    ({ gate := st.gate.release r, socketMap := mapDelete st.socketMap s,
       controllers := st.controllers.erase r },
     [(s, .error code msg (some r))])
  | .disconnect s => handleDisconnection st s

/-- Execute an event if it is enabled; a disabled provider callback cannot
occur, so it leaves the state unchanged. -/
def relayExec (st : RelayState) (e : REvent) : RelayState × List (Nat × Frame) :=
  if e.enabled st then relayStep st e else (st, [])

/-- Run a sequence of events, concatenating the emitted frames. -/
def runRelay : RelayState → List REvent → RelayState × List (Nat × Frame)
  | st, [] => (st, [])
  | st, e :: es =>
    let p := relayExec st e
    let q := runRelay p.1 es
    (q.1, p.2 ++ q.2)

/-- Initial relay state: empty gate, no sessions, no generations. -/
def initRelay : RelayState := ⟨⟨none⟩, [], []⟩

/-! ## Relay invariants -/

/-- Coupling invariant of the relay: the gate, the socket map and the set
of live abort controllers move together.  When the gate is empty there is
no tracked request and no in-flight generation; when it holds `r` there is
exactly one socket-map entry, for `r`, and exactly one live controller. -/
def GateInv (st : RelayState) : Prop :=
  match st.gate.activeRequestId with
  | none => st.socketMap = [] ∧ st.controllers = []
  | some r => ∃ s, st.socketMap = [(s, r)] ∧ st.controllers = [r]

theorem gateInv_init : GateInv initRelay := by
  simp [GateInv, initRelay]

theorem gateInv_exec (st : RelayState) (e : REvent) (h : GateInv st) :
    GateInv (relayExec st e).1 := by
  obtain ⟨⟨a⟩, m, c⟩ := st
  cases a with
  | none =>
    obtain ⟨hm, hc⟩ := h
    subst hm; subst hc
    cases e with
    | chatStart s r p =>
      by_cases hp : jsLength p > 8192 <;>
        simp [relayExec, REvent.enabled, relayStep, handleChatStart, hp,
          ConcurrencyGate.acquire, mapSet, ctlInsert, GateInv]
    | abortMsg s r =>
      simp [relayExec, REvent.enabled, relayStep, handleAbort, mapGet, GateInv]
    | provChunk s r text =>
      simp [relayExec, REvent.enabled, relayStep, mapGet, GateInv]
    | provEnd s r =>
      simp [relayExec, REvent.enabled, relayStep, mapGet, GateInv]
    | provError s r code msg =>
      simp [relayExec, REvent.enabled, relayStep, mapGet, GateInv]
    | disconnect s =>
      simp [relayExec, REvent.enabled, relayStep, handleDisconnection, mapGet,
        GateInv]
  | some r0 =>
    obtain ⟨s0, hm, hc⟩ := h
    subst hm; subst hc
    cases e with
    | chatStart s r p =>
      by_cases hp : jsLength p > 8192 <;>
        simp [relayExec, REvent.enabled, relayStep, handleChatStart, hp,
          ConcurrencyGate.acquire, GateInv]
    | abortMsg s r =>
      by_cases hs : s0 = s
      · subst hs
        by_cases hr : r0 = r
        · subst hr
          simp [relayExec, REvent.enabled, relayStep, handleAbort, mapGet,
            mapDelete, ConcurrencyGate.release, GateInv]
        · simp [relayExec, REvent.enabled, relayStep, handleAbort, mapGet, hr,
            GateInv]
          try exact ⟨s0, rfl, rfl⟩
      · simp [relayExec, REvent.enabled, relayStep, handleAbort, mapGet, hs,
          GateInv]
        try exact ⟨s0, rfl, rfl⟩
    | provChunk s r text =>
      by_cases he : (REvent.provChunk s r text).enabled ⟨⟨some r0⟩, [(s0, r0)], [r0]⟩ <;>
        simp [relayExec, he, relayStep, GateInv]
    | provEnd s r =>
      by_cases he : (REvent.provEnd s r).enabled ⟨⟨some r0⟩, [(s0, r0)], [r0]⟩
      · have hsr : s0 = s ∧ r0 = r := by
          simp [REvent.enabled, mapGet] at he
          rcases he with ⟨⟨h1, h2⟩, h3⟩
          exact ⟨h1, h2⟩
        obtain ⟨hs, hr⟩ := hsr
        subst hs; subst hr
        simp [relayExec, he, relayStep, mapDelete, ConcurrencyGate.release,
          GateInv]
      · simp [relayExec, he, GateInv]
        try exact ⟨s0, rfl, rfl⟩
    | provError s r code msg =>
      by_cases he : (REvent.provError s r code msg).enabled ⟨⟨some r0⟩, [(s0, r0)], [r0]⟩
      · have hsr : s0 = s ∧ r0 = r := by
          simp [REvent.enabled, mapGet] at he
          rcases he with ⟨⟨h1, h2⟩, h3⟩
          exact ⟨h1, h2⟩
        obtain ⟨hs, hr⟩ := hsr
        subst hs; subst hr
        simp [relayExec, he, relayStep, mapDelete, ConcurrencyGate.release,
          GateInv]
      · simp [relayExec, he, GateInv]
        try exact ⟨s0, rfl, rfl⟩
    | disconnect s =>
      by_cases hs : s0 = s
      · subst hs
        simp [relayExec, REvent.enabled, relayStep, handleDisconnection, mapGet,
          mapDelete, ConcurrencyGate.release, GateInv]
      · simp [relayExec, REvent.enabled, relayStep, handleDisconnection, mapGet,
          hs, GateInv]
        try exact ⟨s0, rfl, rfl⟩

theorem gateInv_run (st : RelayState) (es : List REvent) (h : GateInv st) :
    GateInv (runRelay st es).1 := by
  induction es generalizing st with
  | nil => simpa [runRelay] using h
  | cons e es ih =>
    simp only [runRelay]
    exact ih _ (gateInv_exec st e h)

/-- C1: the Host's concurrency gate holds at most one active request id at
every reachable state.  `acquire(id)` stores `id` and returns `true`
exactly when the slot is empty, and otherwise returns `false` leaving the
slot unchanged; `release(id)` clears the slot only when it holds exactly
`id` (a non-matching release is a no-op).  Consequently, over every
interleaving of events across any number of peer sessions, at most one
generation is in flight at any instant (at most one live abort controller
and at most one tracked socket entry), and a well-sized `chat_start` that
fails to acquire the gate is answered with an `error` frame carrying
`MODEL_BUSY` and its request id. -/
theorem gate_exclusivity :
    (∀ (g : ConcurrencyGate) (id : String),
        ((g.acquire id).2 = true ↔ g.activeRequestId = none)
      ∧ ((g.acquire id).2 = true → (g.acquire id).1.activeRequestId = some id)
      ∧ ((g.acquire id).2 = false → (g.acquire id).1 = g))
    ∧ (∀ (g : ConcurrencyGate) (id : String),
        (g.activeRequestId = some id → (g.release id).activeRequestId = none)
      ∧ (g.activeRequestId ≠ some id → g.release id = g))
    ∧ (∀ es : List REvent,
        (runRelay initRelay es).1.controllers.length ≤ 1
      ∧ (runRelay initRelay es).1.socketMap.length ≤ 1)
    ∧ (∀ (es : List REvent) (s : Nat) (r : String) (p : List Char),
        jsLength p ≤ 8192 →
        (runRelay initRelay es).1.gate.activeRequestId ≠ none →
        relayStep (runRelay initRelay es).1 (.chatStart s r p)
          = ((runRelay initRelay es).1,
             [(s, .error .MODEL_BUSY "Host is processing another request" (some r))])) := by
  refine ⟨?_, ?_, ?_, ?_⟩
  · intro g id
    obtain ⟨a⟩ := g
    cases a <;> simp [ConcurrencyGate.acquire]
  · intro g id
    constructor
    · intro h
      simp [ConcurrencyGate.release, h]
    · intro h
      simp [ConcurrencyGate.release, if_neg h]
  · intro es
    have h := gateInv_run initRelay es gateInv_init
    unfold GateInv at h
    rcases hv : (runRelay initRelay es).1.gate.activeRequestId with _ | r0 <;>
      rw [hv] at h
    · obtain ⟨h1, h2⟩ := h
      rw [h1, h2]
      constructor <;> simp
    · obtain ⟨s0, h1, h2⟩ := h
      rw [h1, h2]
      constructor <;> simp
  · intro es s r p hp hbusy
    have hnot : ¬ (jsLength p > 8192) := by omega
    rcases hv : (runRelay initRelay es).1.gate.activeRequestId with _ | r0
    · exact absurd hv hbusy
    · simp [relayStep, handleChatStart, hnot, ConcurrencyGate.acquire, hv]

/-- Witness for C1: in a run where request `r1` was accepted, a second
well-sized `chat_start` with id `r2` is answered with `MODEL_BUSY`
carrying `r2`. -/
theorem gate_exclusivity_witness :
    jsLength ['y', 'o'] ≤ 8192
    ∧ (runRelay initRelay [.chatStart 0 "r1" ['h', 'i']]).1.gate.activeRequestId ≠ none
    ∧ relayStep (runRelay initRelay [.chatStart 0 "r1" ['h', 'i']]).1
        (.chatStart 1 "r2" ['y', 'o'])
      = ((runRelay initRelay [.chatStart 0 "r1" ['h', 'i']]).1,
         [(1, .error .MODEL_BUSY "Host is processing another request" (some "r2"))]) :=
  ⟨by decide, by decide,
   gate_exclusivity.2.2.2 [.chatStart 0 "r1" ['h', 'i']] 1 "r2" ['y', 'o']
     (by decide) (by decide)⟩

/-! ## Terminal uniqueness machinery (C2) -/

/-- Is the frame a terminal for request `r` (a `chat_end` with id `r` or an
`error` scoped to `r`)? -/
def isTerminalFor (r : String) : Frame → Bool
  | .chatEnd r2 _ => r2 == r
  | .error _ _ (some r2) => r2 == r
  | _ => false

/-- Is the frame a `chat_chunk` with id `r`? -/
def isChunkFor (r : String) : Frame → Bool
  | .chatChunk r2 _ => r2 == r
  | _ => false

/-- Number of terminal frames for `r` in an outbound frame list. -/
def terminalCount (r : String) (out : List (Nat × Frame)) : Nat :=
  out.countP (fun p => isTerminalFor r p.2)

/-- Number of `chat_chunk` frames for `r` in an outbound frame list. -/
def chunkCount (r : String) (out : List (Nat × Frame)) : Nat :=
  out.countP (fun p => isChunkFor r p.2)

/-- No `chat_chunk` with id `r` appears at or after a terminal frame for
`r`: every chunk index precedes every terminal index. -/
def NoChunkAfterTerminal (out : List (Nat × Frame)) : Prop :=
  ∀ (r : String) (i j : Nat) (hi : i < out.length) (hj : j < out.length),
    isTerminalFor r (out.get ⟨i, hi⟩).2 = true →
    isChunkFor r (out.get ⟨j, hj⟩).2 = true → j < i

theorem terminalCount_append (r : String) (a b : List (Nat × Frame)) :
    terminalCount r (a ++ b) = terminalCount r a + terminalCount r b := by
  simp [terminalCount, List.countP_append]

theorem chunkCount_append (r : String) (a b : List (Nat × Frame)) :
    chunkCount r (a ++ b) = chunkCount r a + chunkCount r b := by
  simp [chunkCount, List.countP_append]

theorem not_terminal_and_chunk (r : String) (f : Frame) :
    isTerminalFor r f = true → isChunkFor r f = true → False := by
  cases f <;> simp [isTerminalFor, isChunkFor]

theorem terminal_mem_count_pos (r : String) (out : List (Nat × Frame))
    (i : Nat) (hi : i < out.length)
    (h : isTerminalFor r (out.get ⟨i, hi⟩).2 = true) :
    0 < terminalCount r out := by
  unfold terminalCount
  rw [List.countP_pos_iff]
  exact ⟨out.get ⟨i, hi⟩, List.get_mem out i hi, by simpa using h⟩

theorem ncat_nil : NoChunkAfterTerminal [] := by
  intro r i j hi hj
  simp at hi

theorem ncat_snoc (out : List (Nat × Frame)) (f : Nat × Frame)
    (h : NoChunkAfterTerminal out)
    (hc : ∀ r, isChunkFor r f.2 = true → terminalCount r out = 0) :
    NoChunkAfterTerminal (out ++ [f]) := by
  intro r i j hi hj hterm hchunk
  have hlen : (out ++ [f]).length = out.length + 1 := by simp
  by_cases hj2 : j < out.length
  · have hgj : (out ++ [f]).get ⟨j, hj⟩ = out.get ⟨j, hj2⟩ := by
      exact List.get_append j hj2
    by_cases hi2 : i < out.length
    · have hgi : (out ++ [f]).get ⟨i, hi⟩ = out.get ⟨i, hi2⟩ := by
        exact List.get_append i hi2
      exact h r i j hi2 hj2 (by rwa [hgi] at hterm) (by rwa [hgj] at hchunk)
    · -- the terminal is the appended frame, the chunk is in `out`
      exact lt_of_lt_of_le hj2 (by omega)
  · -- the chunk is the appended frame
    have hj3 : j = out.length := by omega
    have hgj : (out ++ [f]).get ⟨j, hj⟩ = f := by
      subst hj3
      simp
    rw [hgj] at hchunk
    have hzero := hc r hchunk
    by_cases hi2 : i < out.length
    · have hgi : (out ++ [f]).get ⟨i, hi⟩ = out.get ⟨i, hi2⟩ := by
        exact List.get_append i hi2
      rw [hgi] at hterm
      have := terminal_mem_count_pos r out i hi2 hterm
      omega
    · have hi3 : i = out.length := by omega
      have hgi : (out ++ [f]).get ⟨i, hi⟩ = f := by
        subst hi3
        simp
      rw [hgi] at hterm
      exact absurd hchunk (by
        intro hch
        exact not_terminal_and_chunk r f.2 hterm hch)

/-- The request id introduced by a `chat_start` event, if any. -/
def eventStartId : REvent → Option String
  | .chatStart _ r _ => some r
  | _ => none

/-- Request ids of all `chat_start` events in a trace. -/
def chatStartIds (es : List REvent) : List String :=
  es.filterMap eventStartId

theorem terminalCount_singleton (r : String) (s : Nat) (f : Frame) :
    terminalCount r [(s, f)] = if isTerminalFor r f then 1 else 0 := by
  simp [terminalCount, List.countP_cons]

theorem chunkCount_singleton (r : String) (s : Nat) (f : Frame) :
    chunkCount r [(s, f)] = if isChunkFor r f then 1 else 0 := by
  simp [chunkCount, List.countP_cons]

/-- History invariant of the relay: `out` is the full outbound history and
`used` the set of `chat_start` ids consumed so far.  A request id with a
live abort controller was accepted and has no terminal yet; every request
id gets at most one terminal frame; an id never seen in a `chat_start` has
no terminal and no chunk; and no chunk follows a terminal. -/
def WFConf (st : RelayState) (out : List (Nat × Frame)) (used : List String) :
    Prop :=
  GateInv st
  ∧ (∀ r, r ∈ st.controllers → r ∈ used ∧ terminalCount r out = 0)
  ∧ (∀ r, terminalCount r out ≤ 1)
  ∧ (∀ r, r ∉ used → terminalCount r out = 0 ∧ chunkCount r out = 0)
  ∧ NoChunkAfterTerminal out

theorem wfConf_init : WFConf initRelay [] [] := by
  refine ⟨gateInv_init, ?_, ?_, ?_, ncat_nil⟩ <;>
    simp [initRelay, terminalCount, chunkCount]

theorem wf_parts_terminal (out : List (Nat × Frame)) (used : List String)
    (s : Nat) (f : Frame) (z : String)
    (hf : ∀ r, isTerminalFor r f = (z == r))
    (hnc : ∀ r, isChunkFor r f = false)
    (hz : terminalCount z out = 0) (hzu : z ∈ used)
    (h3 : ∀ r, terminalCount r out ≤ 1)
    (h4 : ∀ r, r ∉ used → terminalCount r out = 0 ∧ chunkCount r out = 0)
    (h5 : NoChunkAfterTerminal out) :
    (∀ r, terminalCount r (out ++ [(s, f)]) ≤ 1)
    ∧ (∀ r, r ∉ used →
        terminalCount r (out ++ [(s, f)]) = 0
        ∧ chunkCount r (out ++ [(s, f)]) = 0)
    ∧ NoChunkAfterTerminal (out ++ [(s, f)]) := by
  refine ⟨?_, ?_, ?_⟩
  · intro r
    rw [terminalCount_append, terminalCount_singleton, hf r]
    by_cases hzr : z = r
    · subst hzr
      simp [hz]
    · have : (z == r) = false := by
        simp [beq_iff_eq]
        exact hzr
      simp [this]
      exact h3 r
  · intro r hru
    have hzr : z ≠ r := fun hh => hru (hh ▸ hzu)
    have hb : (z == r) = false := by
      simp [beq_iff_eq]
      exact hzr
    rw [terminalCount_append, terminalCount_singleton, hf r,
      chunkCount_append, chunkCount_singleton, hnc r]
    simp [hb, (h4 r hru).1, (h4 r hru).2]
  · exact ncat_snoc out _ h5 (by intro r3 hch; rw [hnc r3] at hch; exact absurd hch (by simp))

theorem wf_step (st : RelayState) (out : List (Nat × Frame))
    (used : List String) (e : REvent) (h : WFConf st out used)
    (hfresh : ∀ r, eventStartId e = some r → r ∉ used) :
    WFConf (relayExec st e).1 (out ++ (relayExec st e).2)
      (used ++ (eventStartId e).toList) := by
  obtain ⟨hg, h2, h3, h4, h5⟩ := h
  obtain ⟨⟨a⟩, m, c⟩ := st
  cases a with
  | none =>
    obtain ⟨hm, hc⟩ : m = [] ∧ c = [] := hg
    subst hm; subst hc
    cases e with
    | chatStart s r p =>
      have hr : r ∉ used := hfresh r rfl
      have h4w : ∀ r3, r3 ∉ used ++ [r] →
          terminalCount r3 out = 0 ∧ chunkCount r3 out = 0 := by
        intro r3 hr3
        exact h4 r3 (fun hh => hr3 (List.mem_append_left _ hh))
      by_cases hp : jsLength p > 8192
      · have hstep : relayExec ⟨⟨none⟩, [], []⟩ (REvent.chatStart s r p)
            = (⟨⟨none⟩, [], []⟩,
               [(s, .error .BAD_MESSAGE "Prompt exceeds maximum size of 8 KB"
                  (some r))]) := by
          simp [relayExec, REvent.enabled, relayStep, handleChatStart, hp]
        rw [hstep]
        simp only [eventStartId, Option.toList]
        have hparts := wf_parts_terminal out (used ++ [r]) s
          (.error .BAD_MESSAGE "Prompt exceeds maximum size of 8 KB" (some r)) r
          (fun r3 => rfl) (fun r3 => rfl) (h4 r hr).1 (by simp) h3 h4w h5
        exact ⟨⟨rfl, rfl⟩, by intro r2 hr2; simp at hr2,
          hparts.1, hparts.2.1, hparts.2.2⟩
      · have hstep : relayExec ⟨⟨none⟩, [], []⟩ (REvent.chatStart s r p)
            = (⟨⟨some r⟩, [(s, r)], [r]⟩, []) := by
          simp [relayExec, REvent.enabled, relayStep, handleChatStart, hp,
            ConcurrencyGate.acquire, mapSet, ctlInsert]
        rw [hstep]
        simp only [eventStartId, Option.toList, List.append_nil]
        refine ⟨⟨s, rfl, rfl⟩, ?_, h3, ?_, h5⟩
        · intro r2 hr2
          simp at hr2
          subst hr2
          exact ⟨by simp, (h4 r2 hr).1⟩
        · intro r3 hr3
          simp at hr3
          exact h4 r3 hr3.1
    | abortMsg s r =>
      have hstep : relayExec ⟨⟨none⟩, [], []⟩ (REvent.abortMsg s r)
          = (⟨⟨none⟩, [], []⟩, []) := rfl
      rw [hstep]
      simp only [eventStartId, Option.toList, List.append_nil]
      exact ⟨⟨rfl, rfl⟩, h2, h3, h4, h5⟩
    | provChunk s r text =>
      have hstep : relayExec ⟨⟨none⟩, [], []⟩ (REvent.provChunk s r text)
          = (⟨⟨none⟩, [], []⟩, []) := rfl
      rw [hstep]
      simp only [eventStartId, Option.toList, List.append_nil]
      exact ⟨⟨rfl, rfl⟩, h2, h3, h4, h5⟩
    | provEnd s r =>
      have hstep : relayExec ⟨⟨none⟩, [], []⟩ (REvent.provEnd s r)
          = (⟨⟨none⟩, [], []⟩, []) := rfl
      rw [hstep]
      simp only [eventStartId, Option.toList, List.append_nil]
      exact ⟨⟨rfl, rfl⟩, h2, h3, h4, h5⟩
    | provError s r code msg =>
      have hstep : relayExec ⟨⟨none⟩, [], []⟩ (REvent.provError s r code msg)
          = (⟨⟨none⟩, [], []⟩, []) := rfl
      rw [hstep]
      simp only [eventStartId, Option.toList, List.append_nil]
      exact ⟨⟨rfl, rfl⟩, h2, h3, h4, h5⟩
    | disconnect s =>
      have hstep : relayExec ⟨⟨none⟩, [], []⟩ (REvent.disconnect s)
          = (⟨⟨none⟩, [], []⟩, []) := rfl
      rw [hstep]
      simp only [eventStartId, Option.toList, List.append_nil]
      exact ⟨⟨rfl, rfl⟩, h2, h3, h4, h5⟩
  | some r0 =>
    obtain ⟨s0, hm, hc⟩ : ∃ s0, m = [(s0, r0)] ∧ c = [r0] := hg
    subst hm; subst hc
    have hr0 := h2 r0 (by simp)
    cases e with
    | chatStart s r p =>
      have hr : r ∉ used := hfresh r rfl
      have hrne : r ≠ r0 := fun hh => hr (hh ▸ hr0.1)
      have h4w : ∀ r3, r3 ∉ used ++ [r] →
          terminalCount r3 out = 0 ∧ chunkCount r3 out = 0 := by
        intro r3 hr3
        exact h4 r3 (fun hh => hr3 (List.mem_append_left _ hh))
      by_cases hp : jsLength p > 8192
      · have hstep : relayExec ⟨⟨some r0⟩, [(s0, r0)], [r0]⟩ (REvent.chatStart s r p)
            = (⟨⟨some r0⟩, [(s0, r0)], [r0]⟩,
               [(s, .error .BAD_MESSAGE "Prompt exceeds maximum size of 8 KB"
                  (some r))]) := by
          simp [relayExec, REvent.enabled, relayStep, handleChatStart, hp]
        rw [hstep]
        simp only [eventStartId, Option.toList]
        have hparts := wf_parts_terminal out (used ++ [r]) s
          (.error .BAD_MESSAGE "Prompt exceeds maximum size of 8 KB" (some r)) r
          (fun r3 => rfl) (fun r3 => rfl) (h4 r hr).1 (by simp) h3 h4w h5
        refine ⟨⟨s0, rfl, rfl⟩, ?_, hparts.1, hparts.2.1, hparts.2.2⟩
        intro r2 hr2
        simp at hr2
        subst hr2
        refine ⟨by simp [hr0.1], ?_⟩
        rw [terminalCount_append, terminalCount_singleton]
        have hb : (r == r2) = false := by
          simp [beq_iff_eq]
          exact fun hh => hrne hh
        simp [isTerminalFor, hb, hr0.2]
      · have hstep : relayExec ⟨⟨some r0⟩, [(s0, r0)], [r0]⟩ (REvent.chatStart s r p)
            = (⟨⟨some r0⟩, [(s0, r0)], [r0]⟩,
               [(s, .error .MODEL_BUSY "Host is processing another request"
                  (some r))]) := by
          simp [relayExec, REvent.enabled, relayStep, handleChatStart, hp,
            ConcurrencyGate.acquire]
        rw [hstep]
        simp only [eventStartId, Option.toList]
        have hparts := wf_parts_terminal out (used ++ [r]) s
          (.error .MODEL_BUSY "Host is processing another request" (some r)) r
          (fun r3 => rfl) (fun r3 => rfl) (h4 r hr).1 (by simp) h3 h4w h5
        refine ⟨⟨s0, rfl, rfl⟩, ?_, hparts.1, hparts.2.1, hparts.2.2⟩
        intro r2 hr2
        simp at hr2
        subst hr2
        refine ⟨by simp [hr0.1], ?_⟩
        rw [terminalCount_append, terminalCount_singleton]
        have hb : (r == r2) = false := by
          simp [beq_iff_eq]
          exact fun hh => hrne hh
        simp [isTerminalFor, hb, hr0.2]
    | abortMsg s r =>
      by_cases hs : s0 = s
      · subst hs
        by_cases hrr : r0 = r
        · subst hrr
          have hstep : relayExec ⟨⟨some r0⟩, [(s0, r0)], [r0]⟩
              (REvent.abortMsg s0 r0)
              = (⟨⟨none⟩, [], []⟩, [(s0, .chatEnd r0 "abort")]) := by
            simp [relayExec, REvent.enabled, relayStep, handleAbort, mapGet,
              ConcurrencyGate.release, mapDelete]
          rw [hstep]
          simp only [eventStartId, Option.toList, List.append_nil]
          have hparts := wf_parts_terminal out used s0 (.chatEnd r0 "abort") r0
            (fun r3 => rfl) (fun r3 => rfl) hr0.2 hr0.1 h3 h4 h5
          exact ⟨⟨rfl, rfl⟩, by intro r2 hr2; simp at hr2,
            hparts.1, hparts.2.1, hparts.2.2⟩
        · have hstep : relayExec ⟨⟨some r0⟩, [(s0, r0)], [r0]⟩
              (REvent.abortMsg s0 r)
              = (⟨⟨some r0⟩, [(s0, r0)], [r0]⟩, []) := by
            simp [relayExec, REvent.enabled, relayStep, handleAbort, mapGet, hrr]
          rw [hstep]
          simp only [eventStartId, Option.toList, List.append_nil]
          exact ⟨⟨s0, rfl, rfl⟩, h2, h3, h4, h5⟩
      · have hstep : relayExec ⟨⟨some r0⟩, [(s0, r0)], [r0]⟩ (REvent.abortMsg s r)
            = (⟨⟨some r0⟩, [(s0, r0)], [r0]⟩, []) := by
          simp [relayExec, REvent.enabled, relayStep, handleAbort, mapGet, hs]
        rw [hstep]
        simp only [eventStartId, Option.toList, List.append_nil]
        exact ⟨⟨s0, rfl, rfl⟩, h2, h3, h4, h5⟩
    | provChunk s r text =>
      by_cases he : (REvent.provChunk s r text).enabled ⟨⟨some r0⟩, [(s0, r0)], [r0]⟩ = true
      · have hsr : s0 = s ∧ r0 = r := by
          simp [REvent.enabled, mapGet] at he
          exact ⟨he.1.1, he.1.2⟩
        obtain ⟨hs, hrr⟩ := hsr
        subst hs; subst hrr
        have hstep : relayExec ⟨⟨some r0⟩, [(s0, r0)], [r0]⟩
            (REvent.provChunk s0 r0 text)
            = (⟨⟨some r0⟩, [(s0, r0)], [r0]⟩, [(s0, .chatChunk r0 text)]) := by
          simp [relayExec, REvent.enabled, relayStep, mapGet]
        rw [hstep]
        simp only [eventStartId, Option.toList, List.append_nil]
        refine ⟨⟨s0, rfl, rfl⟩, ?_, ?_, ?_, ?_⟩
        · intro r2 hr2
          simp at hr2
          subst hr2
          refine ⟨hr0.1, ?_⟩
          rw [terminalCount_append, terminalCount_singleton]
          simp [isTerminalFor, hr0.2]
        · intro r3
          rw [terminalCount_append, terminalCount_singleton]
          simp [isTerminalFor]
          exact h3 r3
        · intro r3 hr3
          have hne : r3 ≠ r0 := fun hh => hr3 (hh ▸ hr0.1)
          have hb : (r0 == r3) = false := by
            simp [beq_iff_eq]
            exact fun hh => hne hh.symm
          rw [terminalCount_append, terminalCount_singleton,
            chunkCount_append, chunkCount_singleton]
          simp [isTerminalFor, isChunkFor, hb, (h4 r3 hr3).1, (h4 r3 hr3).2]
        · refine ncat_snoc out _ h5 ?_
          intro r3 hch
          simp [isChunkFor, beq_iff_eq] at hch
          subst hch
          exact hr0.2
      · have hstep : relayExec ⟨⟨some r0⟩, [(s0, r0)], [r0]⟩
            (REvent.provChunk s r text)
            = (⟨⟨some r0⟩, [(s0, r0)], [r0]⟩, []) := by
          simp [relayExec, he]
        rw [hstep]
        simp only [eventStartId, Option.toList, List.append_nil]
        exact ⟨⟨s0, rfl, rfl⟩, h2, h3, h4, h5⟩
    | provEnd s r =>
      by_cases he : (REvent.provEnd s r).enabled ⟨⟨some r0⟩, [(s0, r0)], [r0]⟩ = true
      · have hsr : s0 = s ∧ r0 = r := by
          simp [REvent.enabled, mapGet] at he
          exact ⟨he.1.1, he.1.2⟩
        obtain ⟨hs, hrr⟩ := hsr
        subst hs; subst hrr
        have hstep : relayExec ⟨⟨some r0⟩, [(s0, r0)], [r0]⟩
            (REvent.provEnd s0 r0)
            = (⟨⟨none⟩, [], []⟩, [(s0, .chatEnd r0 "stop")]) := by
          simp [relayExec, REvent.enabled, relayStep, mapGet,
            ConcurrencyGate.release, mapDelete]
        rw [hstep]
        simp only [eventStartId, Option.toList, List.append_nil]
        have hparts := wf_parts_terminal out used s0 (.chatEnd r0 "stop") r0
          (fun r3 => rfl) (fun r3 => rfl) hr0.2 hr0.1 h3 h4 h5
        exact ⟨⟨rfl, rfl⟩, by intro r2 hr2; simp at hr2,
          hparts.1, hparts.2.1, hparts.2.2⟩
      · have hstep : relayExec ⟨⟨some r0⟩, [(s0, r0)], [r0]⟩ (REvent.provEnd s r)
            = (⟨⟨some r0⟩, [(s0, r0)], [r0]⟩, []) := by
          simp [relayExec, he]
        rw [hstep]
        simp only [eventStartId, Option.toList, List.append_nil]
        exact ⟨⟨s0, rfl, rfl⟩, h2, h3, h4, h5⟩
    | provError s r code msg =>
      by_cases he : (REvent.provError s r code msg).enabled
          ⟨⟨some r0⟩, [(s0, r0)], [r0]⟩ = true
      · have hsr : s0 = s ∧ r0 = r := by
          simp [REvent.enabled, mapGet] at he
          exact ⟨he.1.1, he.1.2⟩
        obtain ⟨hs, hrr⟩ := hsr
        subst hs; subst hrr
        have hstep : relayExec ⟨⟨some r0⟩, [(s0, r0)], [r0]⟩
            (REvent.provError s0 r0 code msg)
            = (⟨⟨none⟩, [], []⟩, [(s0, .error code msg (some r0))]) := by
          simp [relayExec, REvent.enabled, relayStep, mapGet,
            ConcurrencyGate.release, mapDelete]
        rw [hstep]
        simp only [eventStartId, Option.toList, List.append_nil]
        have hparts := wf_parts_terminal out used s0 (.error code msg (some r0)) r0
          (fun r3 => rfl) (fun r3 => rfl) hr0.2 hr0.1 h3 h4 h5
        exact ⟨⟨rfl, rfl⟩, by intro r2 hr2; simp at hr2,
          hparts.1, hparts.2.1, hparts.2.2⟩
      · have hstep : relayExec ⟨⟨some r0⟩, [(s0, r0)], [r0]⟩
            (REvent.provError s r code msg)
            = (⟨⟨some r0⟩, [(s0, r0)], [r0]⟩, []) := by
          simp [relayExec, he]
        rw [hstep]
        simp only [eventStartId, Option.toList, List.append_nil]
        exact ⟨⟨s0, rfl, rfl⟩, h2, h3, h4, h5⟩
    | disconnect s =>
      by_cases hs : s0 = s
      · subst hs
        have hstep : relayExec ⟨⟨some r0⟩, [(s0, r0)], [r0]⟩ (REvent.disconnect s0)
            = (⟨⟨none⟩, [], []⟩, []) := by
          simp [relayExec, REvent.enabled, relayStep, handleDisconnection,
            mapGet, ConcurrencyGate.release, mapDelete]
        rw [hstep]
        simp only [eventStartId, Option.toList, List.append_nil]
        exact ⟨⟨rfl, rfl⟩, by intro r2 hr2; simp at hr2, h3, h4, h5⟩
      · have hstep : relayExec ⟨⟨some r0⟩, [(s0, r0)], [r0]⟩ (REvent.disconnect s)
            = (⟨⟨some r0⟩, [(s0, r0)], [r0]⟩, []) := by
          simp [relayExec, REvent.enabled, relayStep, handleDisconnection,
            mapGet, hs]
        rw [hstep]
        simp only [eventStartId, Option.toList, List.append_nil]
        exact ⟨⟨s0, rfl, rfl⟩, h2, h3, h4, h5⟩

theorem runRelay_append (st : RelayState) (es1 es2 : List REvent) :
    runRelay st (es1 ++ es2)
      = ((runRelay (runRelay st es1).1 es2).1,
         (runRelay st es1).2 ++ (runRelay (runRelay st es1).1 es2).2) := by
  induction es1 generalizing st with
  | nil => simp [runRelay]
  | cons e es ih =>
    simp only [List.cons_append, runRelay, List.append_eq]
    rw [ih]
    simp

theorem chatStartIds_cons (e : REvent) (es : List REvent) :
    chatStartIds (e :: es) = (eventStartId e).toList ++ chatStartIds es := by
  cases he : eventStartId e <;> simp [chatStartIds, List.filterMap_cons, he]

theorem wf_run (es : List REvent) (st : RelayState) (out : List (Nat × Frame))
    (used : List String) (h : WFConf st out used)
    (hfr : ∀ r ∈ chatStartIds es, r ∉ used)
    (hnd : (chatStartIds es).Nodup) :
    WFConf (runRelay st es).1 (out ++ (runRelay st es).2)
      (used ++ chatStartIds es) := by
  induction es generalizing st out used with
  | nil => simpa [runRelay, chatStartIds] using h
  | cons e es ih =>
    rw [chatStartIds_cons] at hfr hnd ⊢
    have hfresh : ∀ r, eventStartId e = some r → r ∉ used := by
      intro r hr
      exact hfr r (by simp [hr])
    have hstep := wf_step st out used e h hfresh
    have hdisj := (List.nodup_append.mp hnd).2.2
    have hfr2 : ∀ r ∈ chatStartIds es, r ∉ used ++ (eventStartId e).toList := by
      intro r hr hmem
      rcases List.mem_append.mp hmem with hmem | hmem
      · exact hfr r (List.mem_append_right _ hr) hmem
      · exact hdisj hmem hr
    have hnd2 : (chatStartIds es).Nodup := (List.nodup_append.mp hnd).2.1
    have hrec := ih (relayExec st e).1 (out ++ (relayExec st e).2)
      (used ++ (eventStartId e).toList) hstep hfr2 hnd2
    simp only [runRelay]
    rw [← List.append_assoc, ← List.append_assoc]
    exact hrec

/-- A terminal-causing event for request `r` from state `st`: a provider
completion, a provider error, or a client abort that the relay confirms
(the socket's active request matches and the adapter holds a controller). -/
def terminalEventOk (st : RelayState) (r : String) : REvent → Prop
  | .provEnd s r2 => r2 = r ∧ (REvent.provEnd s r2).enabled st = true
  | .provError s r2 code msg =>
    r2 = r ∧ (REvent.provError s r2 code msg).enabled st = true
  | .abortMsg s r2 =>
    r2 = r ∧ mapGet st.socketMap s = some r2
      ∧ st.controllers.contains r2 = true
  | _ => False

/-- C2: in every run whose `chat_start` events carry pairwise-distinct
request ids, each request id `r` receives at most one terminal frame
(`chat_end` or request-scoped `error`), every `chat_chunk` with id `r`
precedes every terminal with id `r` (so none follows the terminal), a
request still in flight has no terminal yet, and each terminating path —
provider completion, provider error, or confirmed client abort — emits
exactly one terminal frame with id `r`. -/
theorem relay_terminal_uniqueness (es : List REvent)
    (hnd : (chatStartIds es).Nodup) :
    (∀ r, terminalCount r (runRelay initRelay es).2 ≤ 1)
    ∧ NoChunkAfterTerminal (runRelay initRelay es).2
    ∧ (∀ r, r ∈ (runRelay initRelay es).1.controllers →
        terminalCount r (runRelay initRelay es).2 = 0)
    ∧ (∀ r e, terminalEventOk (runRelay initRelay es).1 r e →
        terminalCount r (runRelay initRelay (es ++ [e])).2 = 1) := by
  have hwf := wf_run es initRelay [] [] wfConf_init (by simp) hnd
  simp only [List.nil_append] at hwf
  obtain ⟨hg, h2, h3, h4, h5⟩ := hwf
  refine ⟨h3, h5, fun r hr => (h2 r hr).2, ?_⟩
  intro r e hok
  rw [runRelay_append]
  simp only [runRelay]
  rw [terminalCount_append]
  cases e with
  | provEnd s r2 =>
    obtain ⟨hrr, henb⟩ := hok
    subst hrr
    have hmem : r2 ∈ (runRelay initRelay es).1.controllers := by
      simp [REvent.enabled] at henb
      exact henb.2
    have h0 := (h2 r2 hmem).2
    rw [h0]
    simp [relayExec, henb, relayStep, terminalCount, List.countP_cons,
      isTerminalFor]
  | provError s r2 code msg =>
    obtain ⟨hrr, henb⟩ := hok
    subst hrr
    have hmem : r2 ∈ (runRelay initRelay es).1.controllers := by
      simp [REvent.enabled] at henb
      exact henb.2
    have h0 := (h2 r2 hmem).2
    rw [h0]
    simp [relayExec, henb, relayStep, terminalCount, List.countP_cons,
      isTerminalFor]
  | abortMsg s r2 =>
    obtain ⟨hrr, hmg, hct⟩ := hok
    subst hrr
    have hmem : r2 ∈ (runRelay initRelay es).1.controllers := by
      simpa using hct
    have h0 := (h2 r2 hmem).2
    rw [h0]
    simp [relayExec, REvent.enabled, relayStep, handleAbort, hmg, hct, hmem,
      terminalCount, List.countP_cons, isTerminalFor]
  | chatStart s r2 p => exact absurd hok (by simp [terminalEventOk])
  | provChunk s r2 text => exact absurd hok (by simp [terminalEventOk])
  | disconnect s => exact absurd hok (by simp [terminalEventOk])

/-- Witness for C2: a run accepting `r1`, streaming one chunk and then
completing emits exactly one terminal for `r1`. -/
theorem relay_terminal_uniqueness_witness :
    (chatStartIds [REvent.chatStart 0 "r1" ['h', 'i'],
        .provChunk 0 "r1" ['x']]).Nodup
    ∧ terminalCount "r1"
        (runRelay initRelay
          ([REvent.chatStart 0 "r1" ['h', 'i'], .provChunk 0 "r1" ['x']]
            ++ [REvent.provEnd 0 "r1"])).2 = 1 :=
  ⟨by decide,
   (relay_terminal_uniqueness
      [REvent.chatStart 0 "r1" ['h', 'i'], .provChunk 0 "r1" ['x']]
      (by decide)).2.2.2 "r1" (.provEnd 0 "r1") ⟨rfl, by decide⟩⟩

/-! ## Operation ordering within handlers (C3)

`microOps` lists the primitive effects of each handler in source
statement order (relay.ts): the `onEnd`/`onError` sink callbacks write
the terminal frame and then release the gate, while `handleAbort` calls
`ollama.abort`, releases the gate, deletes the socket-map entry and only
then writes the `chat_end(abort)` frame. -/

inductive MicroOp
  | enqueue (socket : Nat) (f : Frame)
  | gateAcquire (requestId : String)
  | gateRelease (requestId : String)
  | mapSetOp (socket : Nat) (requestId : String)
  | mapDeleteOp (socket : Nat)
  | providerAbort (requestId : String)
  | notify
deriving DecidableEq, Repr

/-- Primitive effects of each relay handler, in source statement order. -/
def microOps (st : RelayState) : REvent → List MicroOp
  | .chatStart s r p =>
    if jsLength p > 8192 then
      [.enqueue s (.error .BAD_MESSAGE "Prompt exceeds maximum size of 8 KB"
        (some r))]
    else
      match st.gate.acquire r with
      | (_, true) => [.gateAcquire r, .mapSetOp s r, .notify]
      | (_, false) =>
        [.enqueue s (.error .MODEL_BUSY "Host is processing another request"
          (some r))]
  | .abortMsg s r =>
    if mapGet st.socketMap s = some r then
      if st.controllers.contains r then
        [.providerAbort r, .gateRelease r, .mapDeleteOp s,
         .enqueue s (.chatEnd r "abort")]
      else [.providerAbort r]
    else []
  | .provChunk s r text => [.enqueue s (.chatChunk r text)]
  | .provEnd s r =>
    [.enqueue s (.chatEnd r "stop"), .gateRelease r, .mapDeleteOp s, .notify]
  | .provError s r code msg =>
    [.enqueue s (.error code msg (some r)), .gateRelease r, .mapDeleteOp s,
     .notify]
  | .disconnect s =>
    match mapGet st.socketMap s with
    | some r => [.providerAbort r, .gateRelease r, .mapDeleteOp s]
    | none => []

/-- The frame writes inside a micro-op list, in order. -/
def enqOf : MicroOp → Option (Nat × Frame)
  | .enqueue s f => some (s, f)
  | _ => none

/-- Coherence of the two views of a handler: its frame writes are exactly
the frames `relayStep` emits, in the same order. -/
theorem enqueues_microOps (st : RelayState) (e : REvent) :
    (microOps st e).filterMap enqOf = (relayStep st e).2 := by
  cases e with
  | chatStart s r p =>
    by_cases hp : jsLength p > 8192
    · simp [microOps, relayStep, handleChatStart, hp, enqOf]
    · rcases ha : st.gate.acquire r with ⟨g2, b⟩
      cases b <;>
        simp [microOps, relayStep, handleChatStart, hp, ha, enqOf]
  | abortMsg s r =>
    by_cases h1 : mapGet st.socketMap s = some r
    · by_cases h2 : r ∈ st.controllers <;>
        simp [microOps, relayStep, handleAbort, h1, h2, enqOf]
    · simp [microOps, relayStep, handleAbort, h1, enqOf]
  | provChunk s r text => simp [microOps, relayStep, enqOf]
  | provEnd s r => simp [microOps, relayStep, enqOf]
  | provError s r code msg => simp [microOps, relayStep, enqOf]
  | disconnect s =>
    rcases h1 : mapGet st.socketMap s with _ | r <;>
      simp [microOps, relayStep, handleDisconnection, h1, enqOf]

/-- Every `gateRelease r` in the micro-op list is strictly preceded by the
enqueue of a terminal frame for `r`. -/
def terminalEnqueuedBeforeRelease (r : String) (ops : List MicroOp) : Prop :=
  ∀ j : Fin ops.length, ops.get j = .gateRelease r →
    ∃ i : Fin ops.length, (i : Nat) < (j : Nat)
      ∧ ∃ s f, ops.get i = .enqueue s f ∧ isTerminalFor r f = true

theorem terminalEvent_emits (st : RelayState) (r : String) (e : REvent)
    (hok : terminalEventOk st r e) :
    terminalCount r (relayExec st e).2 = 1 := by
  cases e with
  | provEnd s r2 =>
    obtain ⟨hrr, henb⟩ := hok
    subst hrr
    simp [relayExec, henb, relayStep, terminalCount, List.countP_cons,
      isTerminalFor]
  | provError s r2 code msg =>
    obtain ⟨hrr, henb⟩ := hok
    subst hrr
    simp [relayExec, henb, relayStep, terminalCount, List.countP_cons,
      isTerminalFor]
  | abortMsg s r2 =>
    obtain ⟨hrr, hmg, hct⟩ := hok
    subst hrr
    have hmem : r2 ∈ st.controllers := by simpa using hct
    simp [relayExec, REvent.enabled, relayStep, handleAbort, hmg, hct, hmem,
      terminalCount, List.countP_cons, isTerminalFor]
  | chatStart s r2 p => exact absurd hok (by simp [terminalEventOk])
  | provChunk s r2 text => exact absurd hok (by simp [terminalEventOk])
  | disconnect s => exact absurd hok (by simp [terminalEventOk])

/-- C3 (amended): on provider completion and provider error the terminal
frame is enqueued strictly before the gate release inside the handler.
On a confirmed client abort the source releases the gate *before*
enqueuing the `chat_end(abort)` frame, but both effects belong to the
same synchronously-executed handler, so at every event boundary a
terminal-path event has already placed the terminal frame in the
outbound history: any observer running between events that sees the gate
empty after such a path has seen the terminal frame enqueued. -/
theorem relay_release_after_terminal :
    (∀ (st : RelayState) (s : Nat) (r : String),
        terminalEnqueuedBeforeRelease r (microOps st (.provEnd s r)))
    ∧ (∀ (st : RelayState) (s : Nat) (r : String) (code : ErrorCode)
          (msg : String),
        terminalEnqueuedBeforeRelease r (microOps st (.provError s r code msg)))
    ∧ (∀ (st : RelayState) (s : Nat) (r : String),
        mapGet st.socketMap s = some r → st.controllers.contains r = true →
        microOps st (.abortMsg s r)
          = [.providerAbort r, .gateRelease r, .mapDeleteOp s,
             .enqueue s (.chatEnd r "abort")])
    ∧ (∀ (es : List REvent) (e : REvent) (es2 : List REvent) (r : String),
        terminalEventOk (runRelay initRelay es).1 r e →
        0 < terminalCount r (runRelay initRelay (es ++ e :: es2)).2) := by
  refine ⟨?_, ?_, ?_, ?_⟩
  · intro st s r j hj
    have hlen : (microOps st (.provEnd s r)).length = 4 := rfl
    rcases j with ⟨j, hjlt⟩
    have hjlt4 : j < 4 := hlen ▸ hjlt
    interval_cases j
    · exact absurd hj (by intro hcon; cases hcon)
    · refine ⟨⟨0, by rw [hlen]; omega⟩, ?_, s, .chatEnd r "stop", rfl, ?_⟩
      · show (0 : Nat) < 1
        omega
      · simp [isTerminalFor]
    · exact absurd hj (by intro hcon; cases hcon)
    · exact absurd hj (by intro hcon; cases hcon)
  · intro st s r code msg j hj
    have hlen : (microOps st (.provError s r code msg)).length = 4 := rfl
    rcases j with ⟨j, hjlt⟩
    have hjlt4 : j < 4 := hlen ▸ hjlt
    interval_cases j
    · exact absurd hj (by intro hcon; cases hcon)
    · refine ⟨⟨0, by rw [hlen]; omega⟩, ?_, s, .error code msg (some r), rfl, ?_⟩
      · show (0 : Nat) < 1
        omega
      · simp [isTerminalFor]
    · exact absurd hj (by intro hcon; cases hcon)
    · exact absurd hj (by intro hcon; cases hcon)
  · intro st s r h1 h2
    have hmem : r ∈ st.controllers := by simpa using h2
    simp [microOps, h1, hmem]
  · intro es e es2 r hok
    rw [runRelay_append]
    rw [terminalCount_append]
    have hmid := terminalEvent_emits (runRelay initRelay es).1 r e hok
    simp only [runRelay]
    rw [terminalCount_append]
    omega

/-- Witness for C3 (amended): the provider-completion handler from the
initial state, and a confirmed abort after an accepted start both leave a
terminal frame in the outbound history. -/
theorem relay_release_after_terminal_witness :
    terminalEnqueuedBeforeRelease "r1" (microOps initRelay (.provEnd 0 "r1"))
    ∧ 0 < terminalCount "r1"
        (runRelay initRelay
          ([REvent.chatStart 0 "r1" ['h', 'i']]
            ++ REvent.abortMsg 0 "r1" :: [])).2 :=
  ⟨relay_release_after_terminal.1 initRelay 0 "r1",
   relay_release_after_terminal.2.2.2
     [REvent.chatStart 0 "r1" ['h', 'i']] (.abortMsg 0 "r1") [] "r1"
     ⟨rfl, by decide, by decide⟩⟩

/-- Counterexample for C3 as stated: on the client-initiated abort path
the gate release is *not* strictly after the terminal enqueue —
`handleAbort` releases the gate (index 1 of its effect sequence) before
writing `chat_end(abort)` (index 3). -/
theorem relay_release_order_counterexample :
    ¬ terminalEnqueuedBeforeRelease "r1"
        (microOps (runRelay initRelay [REvent.chatStart 0 "r1" ['h', 'i']]).1
          (REvent.abortMsg 0 "r1")) := by
  intro h
  have hops : microOps (runRelay initRelay [REvent.chatStart 0 "r1" ['h', 'i']]).1
      (REvent.abortMsg 0 "r1")
      = [.providerAbort "r1", .gateRelease "r1", .mapDeleteOp 0,
         .enqueue 0 (.chatEnd "r1" "abort")] := by decide
  rw [hops] at h
  obtain ⟨i, hlt, s, f, hop, hterm⟩ := h ⟨1, by simp⟩ rfl
  rcases i with ⟨i, hilen⟩
  simp at hlt
  subst hlt
  exact absurd hop (by intro hcon; cases hcon)

/-! ## NDJSON codec — packages/protocol ndjson

The repository carries two revisions of `createDecoder`.  The copy at
src/packages/protocol/src/ndjson.ts has no buffer bound; the revision in
src/unnamed/part_000 enforces the 64 KB reassembly bound the protocol
documents: on `write` it appends the chunk, and if `buffer.length`
(UTF-16 code units) exceeds `MAX_BUFFER_SIZE` it clears the buffer and
reports through the error callback without scanning for a newline; only
otherwise does it split off and parse complete lines.  The bounded
revision is embedded here.  `JSON.parse` is a JavaScript builtin, so the
decoder is parametric in the parse function applied to each line. -/

def MAX_BUFFER_SIZE : Nat := 64 * 1024

/-- The message reported through the decoder's error callback. -/
def overflowMsg : String := "Buffer exceeded 64 KB without finding newline"

/-- `encode`: the JSON serialization of a value followed by one newline. -/
def encode {α : Type} (stringify : α → List Char) (m : α) : List Char :=
  stringify m ++ ['\n']

/-- `buffer.indexOf("\n")` with the two `slice`s: the first line and the
rest, or `none` when the buffer holds no newline. -/
def splitLine : List Char → Option (List Char × List Char)
  | [] => none
  | c :: cs =>
    if c = '\n' then some ([], cs)
    else
      match splitLine cs with
      | none => none
      | some (l, rest) => some (c :: l, rest)

theorem splitLine_length {b l rest : List Char}
    (h : splitLine b = some (l, rest)) : rest.length < b.length := by
  induction b generalizing l rest with
  | nil => simp [splitLine] at h
  | cons c cs ih =>
    by_cases hc : c = '\n'
    · simp [splitLine, hc] at h
      obtain ⟨h1, h2⟩ := h
      subst h2
      simp
    · simp only [splitLine, if_neg hc] at h
      rcases hs : splitLine cs with _ | ⟨l2, rest2⟩ <;> rw [hs] at h
      · simp at h
      · simp at h
        obtain ⟨h1, h2⟩ := h
        subst h2
        have := ih hs
        simp
        omega

theorem splitLine_none {b : List Char} (h : '\n' ∉ b) : splitLine b = none := by
  induction b with
  | nil => rfl
  | cons c cs ih =>
    simp at h
    have hc : ¬ (c = '\n') := fun hh => h.1 hh.symm
    simp [splitLine, hc, ih h.2]

theorem splitLine_frame {f rest : List Char} (h : '\n' ∉ f) :
    splitLine (f ++ '\n' :: rest) = some (f, rest) := by
  induction f with
  | nil => simp [splitLine]
  | cons c cs ih =>
    simp at h
    have hc : ¬ (c = '\n') := fun hh => h.1 hh.symm
    simp [splitLine, hc, ih h.2]

/-- The `while` loop of `write`: repeatedly slice off the first line,
skip empty lines, parse the rest (silently discarding parse failures),
and stop when no newline remains. -/
def consumeLines {α : Type} (parse : List Char → Option α) (b : List Char) :
    List α × List Char :=
  match hs : splitLine b with
  | none => ([], b)
  | some (line, rest) =>
    let t := consumeLines parse rest
    if line = [] then t
    else
      match parse line with
      | some v => (v :: t.1, t.2)
      | none => t
termination_by b.length
decreasing_by exact splitLine_length hs

/-- Decoder state: the reassembly buffer. -/
structure DecoderState where
  buffer : List Char
deriving DecidableEq, Repr

/-- `createDecoder(...).write(chunk)` from src/unnamed/part_000: append,
clear-and-signal when `buffer.length` exceeds 64 KB (no
resynchronization), otherwise extract and parse complete lines.  Returns
the new state, the values delivered to `onMessage`, and the strings
delivered to `onError`. -/
def decoderWrite {α : Type} (parse : List Char → Option α)
    (st : DecoderState) (chunk : List Char) :
    DecoderState × List α × List String :=
  let buffer := st.buffer ++ chunk
  if jsLength buffer > MAX_BUFFER_SIZE then
    (⟨[]⟩, [], [overflowMsg])
  else
    let t := consumeLines parse buffer
    (⟨t.2⟩, t.1, [])

/-- Feed a sequence of chunks, concatenating deliveries and errors. -/
def writeAll {α : Type} (parse : List Char → Option α) :
    DecoderState → List (List Char) → DecoderState × List α × List String
  | st, [] => (st, [], [])
  | st, c :: cs =>
    let p := decoderWrite parse st c
    let q := writeAll parse p.1 cs
    (q.1, p.2.1 ++ q.2.1, p.2.2 ++ q.2.2)

theorem consumeLines_no_newline {α : Type} (parse : List Char → Option α)
    {b : List Char} (h : '\n' ∉ b) : consumeLines parse b = ([], b) := by
  rw [consumeLines]
  split
  · rfl
  · rename_i line rest hs
    rw [splitLine_none h] at hs
    exact absurd hs (by simp)

theorem splitLine_decomp {b l rest : List Char}
    (h : splitLine b = some (l, rest)) : b = l ++ '\n' :: rest := by
  induction b generalizing l rest with
  | nil => simp [splitLine] at h
  | cons c cs ih =>
    by_cases hc : c = '\n'
    · simp [splitLine, hc] at h
      obtain ⟨h1, h2⟩ := h
      subst h1; subst h2
      simp [hc]
    · simp only [splitLine, if_neg hc] at h
      rcases hs : splitLine cs with _ | ⟨l2, rest2⟩ <;> rw [hs] at h
      · simp at h
      · simp at h
        obtain ⟨h1, h2⟩ := h
        subst h1; subst h2
        simp [ih hs]

theorem consumeLines_frame_cons {α : Type} (parse : List Char → Option α)
    {f rest : List Char} (hnl : '\n' ∉ f) (hne : f ≠ []) (m : α)
    (hp : parse f = some m) :
    consumeLines parse (f ++ '\n' :: rest)
      = (m :: (consumeLines parse rest).1, (consumeLines parse rest).2) := by
  rw [consumeLines]
  split
  · rename_i hs
    rw [splitLine_frame hnl] at hs
    exact absurd hs (by simp)
  · rename_i line rest2 hs
    rw [splitLine_frame hnl] at hs
    simp at hs
    obtain ⟨h1, h2⟩ := hs
    subst h1; subst h2
    simp [hne, hp]

/-- Per-message contract of the external `JSON.stringify`/`JSON.parse`
pair: serialized JSON contains no raw newline, is non-empty, and parsing
it returns the value. -/
def GoodMsg {α : Type} (parse : List Char → Option α)
    (stringify : α → List Char) (m : α) : Prop :=
  '\n' ∉ stringify m ∧ stringify m ≠ [] ∧ parse (stringify m) = some m

theorem consumeLines_prefix {α : Type} (parse : List Char → Option α)
    (stringify : α → List Char) :
    ∀ (msgs : List α) (P rest : List Char),
      (∀ m ∈ msgs, GoodMsg parse stringify m) →
      P ++ rest = ((msgs.map (encode stringify)).flatten) →
      ∃ k r2, consumeLines parse P = (msgs.take k, r2) ∧ '\n' ∉ r2
        ∧ r2 ++ rest = (((msgs.drop k).map (encode stringify)).flatten) := by
  intro msgs
  induction msgs with
  | nil =>
    intro P rest hg heq
    simp at heq
    obtain ⟨hP, hrest⟩ := heq
    subst hP; subst hrest
    exact ⟨0, [], by rw [consumeLines_no_newline parse (by simp)]; simp,
      by simp, by simp⟩
  | cons m ms ih =>
    intro P rest hg heq
    obtain ⟨hnl, hne, hp⟩ := hg m (by simp)
    have heq2 : P ++ rest
        = stringify m ++ '\n' :: ((ms.map (encode stringify)).flatten) := by
      simpa [encode] using heq
    rcases List.append_eq_append_iff.mp heq2 with ⟨t, hfr, hrest⟩ | ⟨t, hP, htail⟩
    · -- P is a prefix of the first frame body: no newline yet
      have hnlP : '\n' ∉ P := by
        intro hmem
        exact hnl (hfr ▸ List.mem_append_left t hmem)
      refine ⟨0, P, by rw [consumeLines_no_newline parse hnlP]; simp, hnlP, ?_⟩
      simpa [encode] using heq2
    · cases t with
      | nil =>
        -- the frame body arrived but its newline has not
        simp at hP htail
        subst hP
        refine ⟨0, stringify m,
          by rw [consumeLines_no_newline parse hnl]; simp, hnl, ?_⟩
        simpa [encode, htail] using heq2
      | cons c t2 =>
        simp at htail
        obtain ⟨hcn, hS⟩ := htail
        subst hcn
        subst hP
        obtain ⟨k, r2, hc, hnl2, hr⟩ := ih t2 rest
          (fun m2 hm2 => hg m2 (by simp [hm2])) hS.symm
        refine ⟨k + 1, r2, ?_, hnl2, ?_⟩
        · rw [consumeLines_frame_cons parse hnl hne m hp, hc]
          simp
        · simpa using hr

/-- No write in the run overflows the 64 KB bound. -/
def NoOverflowRun {α : Type} (parse : List Char → Option α) :
    DecoderState → List (List Char) → Prop
  | _, [] => True
  | st, c :: cs =>
    jsLength (st.buffer ++ c) ≤ MAX_BUFFER_SIZE
    ∧ NoOverflowRun parse (decoderWrite parse st c).1 cs

theorem writeAll_stream {α : Type} (parse : List Char → Option α)
    (stringify : α → List Char) :
    ∀ (chunks : List (List Char)) (msgs : List α) (r : List Char),
      (∀ m ∈ msgs, GoodMsg parse stringify m) →
      '\n' ∉ r →
      r ++ chunks.flatten = ((msgs.map (encode stringify)).flatten) →
      NoOverflowRun parse ⟨r⟩ chunks →
      writeAll parse ⟨r⟩ chunks = (⟨[]⟩, msgs, []) := by
  intro chunks
  induction chunks with
  | nil =>
    intro msgs r hg hnl heq hno
    cases msgs with
    | nil =>
      simp at heq
      subst heq
      rfl
    | cons m ms =>
      exfalso
      apply hnl
      have : '\n' ∈ r ++ ([] : List (List Char)).flatten := by
        rw [heq]
        simp [encode]
      simpa using this
  | cons c cs ih =>
    intro msgs r hg hnl heq hno
    obtain ⟨hbound, hno2⟩ := hno
    have hbound2 : jsLength (r ++ c) ≤ MAX_BUFFER_SIZE := hbound
    have hnotgt : ¬ (jsLength (r ++ c) > MAX_BUFFER_SIZE) := by omega
    have hP : (r ++ c) ++ cs.flatten = ((msgs.map (encode stringify)).flatten) := by
      rw [List.append_assoc]
      simpa using heq
    obtain ⟨k, r2, hc, hnl2, hr⟩ :=
      consumeLines_prefix parse stringify msgs (r ++ c) cs.flatten hg hP
    have hw : decoderWrite parse ⟨r⟩ c = (⟨r2⟩, msgs.take k, []) := by
      simp [decoderWrite, hnotgt, hc]
    rw [hw] at hno2
    have hrec := ih (msgs.drop k) r2
      (fun m2 hm2 => hg m2 (List.mem_of_mem_drop hm2)) hnl2 hr hno2
    simp only [writeAll, hw, hrec]
    simp [List.take_append_drop]

theorem consumeLines_jsLength_le {α : Type} (parse : List Char → Option α) :
    ∀ b : List Char, jsLength (consumeLines parse b).2 ≤ jsLength b := by
  have key : ∀ (n : Nat) (b : List Char), b.length ≤ n →
      jsLength (consumeLines parse b).2 ≤ jsLength b := by
    intro n
    induction n with
    | zero =>
      intro b hb
      have : b = [] := List.length_eq_zero.mp (Nat.le_zero.mp hb)
      subst this
      rw [consumeLines_no_newline parse (by simp)]
    | succ n ih =>
      intro b hb
      rw [consumeLines]
      split
      · exact le_refl _
      · rename_i line rest hs
        have hdec := splitLine_decomp hs
        have hlen : rest.length ≤ n := by
          have := splitLine_length hs
          omega
      -- in every branch the final buffer is that of `consumeLines rest`
        have hr := ih rest hlen
        have hrb : jsLength rest ≤ jsLength b := by
          rw [hdec, jsLength_append]
          simp [jsLength]
          omega
        split
        · exact le_trans hr hrb
        · split
          · simpa using le_trans hr hrb
          · exact le_trans hr hrb
  exact fun b => key b.length b (le_refl _)

theorem noOverflowRun_of_le {α : Type} (parse : List Char → Option α) :
    ∀ (chunks : List (List Char)) (r : List Char),
      jsLength (r ++ chunks.flatten) ≤ MAX_BUFFER_SIZE →
      NoOverflowRun parse ⟨r⟩ chunks := by
  intro chunks
  induction chunks with
  | nil => intro r h; trivial
  | cons c cs ih =>
    intro r h
    rw [List.flatten_cons, ← List.append_assoc] at h
    rw [jsLength_append] at h
    have h1 : jsLength (r ++ c) ≤ MAX_BUFFER_SIZE := by omega
    have hnotgt : ¬ (jsLength (r ++ c) > MAX_BUFFER_SIZE) := by omega
    refine ⟨h1, ?_⟩
    have hw : (decoderWrite parse ⟨r⟩ c).1
        = ⟨(consumeLines parse (r ++ c)).2⟩ := by
      simp [decoderWrite, hnotgt]
    rw [hw]
    apply ih
    rw [jsLength_append]
    have := consumeLines_jsLength_le parse (r ++ c)
    omega

/-! ## JSON values, message schema and validator —
packages/protocol types.ts / validate.ts

`Json` models the values `JSON.parse` can deliver.  Object field names
use Lean `String`; JavaScript string *values* stay `List Char` so that
`.length` (UTF-16 code units, `jsLength`) and UTF-8 byte length can be
told apart. -/

inductive Json
  | null
  | bool (b : Bool)
  | num (n : Int)
  | str (s : List Char)
  | arr (xs : List Json)
  | obj (fields : List (String × Json))

/-- The typed messages of types.ts. -/
inductive PMessage
  | serverInfo (host_name model status : List Char)
  | chatStart (request_id prompt : List Char)
  | chatChunk (request_id text : List Char)
  | chatEnd (request_id finish_reason : List Char)
  | abortM (request_id : List Char)
  | errorM (request_id : Option (List Char)) (code message : List Char)
deriving DecidableEq, Repr

/-- `typeof val === "object" && val !== null` (a JS array is an object;
its string-keyed fields of interest are absent). -/
def asObj : Json → Option (List (String × Json))
  | .obj fields => some fields
  | .arr _ => some []
  | _ => none

/-- JS property access `o.name`: `undefined` (`none`) when absent. -/
def getField (fields : List (String × Json)) (name : String) : Option Json :=
  match fields with
  | [] => none
  | (k, v) :: rest => if k = name then some v else getField rest name

/-- The `VALID_TYPES` set of validate.ts. -/
def VALID_TYPES : List (List Char) :=
  ["server_info".data, "chat_start".data, "chat_chunk".data,
   "chat_end".data, "abort".data, "error".data]

/-- `isValidEnvelope` of validate.ts. -/
def isValidEnvelope (j : Json) : Bool :=
  match asObj j with
  | none => false
  | some o =>
    match getField o "type" with
    | some (.str t) =>
      VALID_TYPES.contains t &&
        (match getField o "request_id" with
         | none => true
         | some (.str _) => true
         | some _ => false)
    | _ => false

/-- `isServerInfo`, fused with the extraction the `ok` branch performs. -/
def toServerInfo (j : Json) : Option PMessage :=
  if isValidEnvelope j then
    match asObj j with
    | some o =>
      match getField o "type" with
      | some (.str t) =>
        if t = "server_info".data then
          match (getField o "payload").bind asObj with
          | some p =>
            match getField p "host_name", getField p "model",
                getField p "status" with
            | some (.str h), some (.str m), some (.str st) =>
              if st = "ready".data ∨ st = "busy".data then
                some (.serverInfo h m st)
              else none
            | _, _, _ => none
          | none => none
        else none
      | _ => none
    | none => none
  else none

/-- `isChatStart`, fused with extraction. -/
def toChatStart (j : Json) : Option PMessage :=
  if isValidEnvelope j then
    match asObj j with
    | some o =>
      match getField o "type", getField o "request_id" with
      | some (.str t), some (.str rid) =>
        if t = "chat_start".data then
          match (getField o "payload").bind asObj with
          | some p =>
            match getField p "prompt" with
            | some (.str prompt) => some (.chatStart rid prompt)
            | _ => none
          | none => none
        else none
      | _, _ => none
    | none => none
  else none

/-- `isChatChunk`, fused with extraction. -/
def toChatChunk (j : Json) : Option PMessage :=
  if isValidEnvelope j then
    match asObj j with
    | some o =>
      match getField o "type", getField o "request_id" with
      | some (.str t), some (.str rid) =>
        if t = "chat_chunk".data then
          match (getField o "payload").bind asObj with
          | some p =>
            match getField p "text" with
            | some (.str text) => some (.chatChunk rid text)
            | _ => none
          | none => none
        else none
      | _, _ => none
    | none => none
  else none

/-- `isChatEnd`, fused with extraction. -/
def toChatEnd (j : Json) : Option PMessage :=
  if isValidEnvelope j then
    match asObj j with
    | some o =>
      match getField o "type", getField o "request_id" with
      | some (.str t), some (.str rid) =>
        if t = "chat_end".data then
          match (getField o "payload").bind asObj with
          | some p =>
            match getField p "finish_reason" with
            | some (.str f) =>
              if f = "stop".data ∨ f = "abort".data ∨ f = "error".data then
                some (.chatEnd rid f)
              else none
            | _ => none
          | none => none
        else none
      | _, _ => none
    | none => none
  else none

/-- `isAbort`, fused with extraction. -/
def toAbort (j : Json) : Option PMessage :=
  if isValidEnvelope j then
    match asObj j with
    | some o =>
      match getField o "type", getField o "request_id" with
      | some (.str t), some (.str rid) =>
        if t = "abort".data then some (.abortM rid) else none
      | _, _ => none
    | none => none
  else none

/-- `isError`, fused with extraction (`request_id` optional). -/
def toError (j : Json) : Option PMessage :=
  if isValidEnvelope j then
    match asObj j with
    | some o =>
      match getField o "type" with
      | some (.str t) =>
        if t = "error".data then
          match (getField o "payload").bind asObj with
          | some p =>
            match getField p "code", getField p "message" with
            | some (.str c), some (.str msg) =>
              match getField o "request_id" with
              | some (.str rid) => some (.errorM (some rid) c msg)
              | _ => some (.errorM none c msg)
            | _, _ => none
          | none => none
        else none
      | _ => none
    | none => none
  else none

/-- Result type of `validateMessage`. -/
inductive ValidateResult
  | ok (message : PMessage)
  | err (error : String)
deriving DecidableEq, Repr

/-- The `chat_start` prompt-size pre-check of `validateMessage`: the
prompt is too long when `payload.prompt.length > MAX_PROMPT_SIZE`, where
`.length` counts UTF-16 code units. -/
def promptTooLong (j : Json) : Bool :=
  match asObj j with
  | some o =>
    match getField o "type" with
    | some (.str t) =>
      if t = "chat_start".data then
        match (getField o "payload").bind asObj with
        | some p =>
          match getField p "prompt" with
          | some (.str prompt) => jsLength prompt > 8192
          | _ => false
        | none => false
      else false
    | _ => false
  | none => false

/-- `validateMessage` of validate.ts. -/
def validateMessage (raw : Json) : ValidateResult :=
  if ¬ isValidEnvelope raw then .err "Invalid message envelope"
  else if promptTooLong raw then .err "Prompt exceeds maximum size"
  else
    match asObj raw with
    | some o =>
      match getField o "type" with
      | some (.str t) =>
        if t = "server_info".data then
          match toServerInfo raw with
          | some m => .ok m
          | none => .err "Invalid server_info message"
        else if t = "chat_start".data then
          match toChatStart raw with
          | some m => .ok m
          | none => .err "Invalid chat_start message"
        else if t = "chat_chunk".data then
          match toChatChunk raw with
          | some m => .ok m
          | none => .err "Invalid chat_chunk message"
        else if t = "chat_end".data then
          match toChatEnd raw with
          | some m => .ok m
          | none => .err "Invalid chat_end message"
        else if t = "abort".data then
          match toAbort raw with
          | some m => .ok m
          | none => .err "Invalid abort message"
        else if t = "error".data then
          match toError raw with
          | some m => .ok m
          | none => .err "Invalid error message"
        else .err "Unknown message type"
      | _ => .err "Unknown message type"
    | none => .err "Unknown message type"

/-! ## Wire form of the typed messages

`stringifyMessage` reproduces `JSON.stringify` on the message records the
code builds (fields in insertion order, standard JSON string escaping).
It provides concrete instances for the codec theorems; `JSON.parse`
itself is a JavaScript builtin, so parse functions stay parameters. -/

def lbrace : Char := Char.ofNat 123

def rbrace : Char := Char.ofNat 125

def hexDigit (n : Nat) : Char :=
  if n < 10 then Char.ofNat (48 + n) else Char.ofNat (87 + n)

/-- JSON string escaping as `JSON.stringify` performs it. -/
def escapeChar (c : Char) : List Char :=
  if c = '"' then ['\\', '"']
  else if c = '\\' then ['\\', '\\']
  else if c = '\n' then ['\\', 'n']
  else if c = '\r' then ['\\', 'r']
  else if c = '\t' then ['\\', 't']
  else if c.toNat = 8 then ['\\', 'b']
  else if c.toNat = 12 then ['\\', 'f']
  else if c.toNat < 32 then
    ['\\', 'u', '0', '0', hexDigit (c.toNat / 16), hexDigit (c.toNat % 16)]
  else [c]

/-- A JSON string literal: quote, escaped characters, quote. -/
def quoteStr (s : List Char) : List Char :=
  '"' :: ((s.map escapeChar).flatten ++ ['"'])

def lit (s : String) : List Char := s.data

/-- `JSON.stringify` of each message record as the code constructs it. -/
def stringifyMessage : PMessage → List Char
  | .serverInfo h m st =>
    [lbrace] ++ lit "\"type\":\"server_info\",\"payload\":" ++ [lbrace]
      ++ lit "\"host_name\":" ++ quoteStr h ++ lit ",\"model\":" ++ quoteStr m
      ++ lit ",\"status\":" ++ quoteStr st ++ [rbrace, rbrace]
  | .chatStart rid p =>
    [lbrace] ++ lit "\"type\":\"chat_start\",\"request_id\":" ++ quoteStr rid
      ++ lit ",\"payload\":" ++ [lbrace] ++ lit "\"prompt\":" ++ quoteStr p
      ++ [rbrace, rbrace]
  | .chatChunk rid t =>
    [lbrace] ++ lit "\"type\":\"chat_chunk\",\"request_id\":" ++ quoteStr rid
      ++ lit ",\"payload\":" ++ [lbrace] ++ lit "\"text\":" ++ quoteStr t
      ++ [rbrace, rbrace]
  | .chatEnd rid f =>
    [lbrace] ++ lit "\"type\":\"chat_end\",\"request_id\":" ++ quoteStr rid
      ++ lit ",\"payload\":" ++ [lbrace] ++ lit "\"finish_reason\":" ++ quoteStr f
      ++ [rbrace, rbrace]
  | .abortM rid =>
    [lbrace] ++ lit "\"type\":\"abort\",\"request_id\":" ++ quoteStr rid
      ++ [rbrace]
  | .errorM none c msg =>
    [lbrace] ++ lit "\"type\":\"error\",\"payload\":" ++ [lbrace]
      ++ lit "\"code\":" ++ quoteStr c ++ lit ",\"message\":" ++ quoteStr msg
      ++ [rbrace, rbrace]
  | .errorM (some rid) c msg =>
    [lbrace] ++ lit "\"type\":\"error\",\"request_id\":" ++ quoteStr rid
      ++ lit ",\"payload\":" ++ [lbrace]
      ++ lit "\"code\":" ++ quoteStr c ++ lit ",\"message\":" ++ quoteStr msg
      ++ [rbrace, rbrace]

/-- A parse function recognizing exactly one serialized message; a stand-in
satisfying the `JSON.parse` contract on that message. -/
def recognizerFor (m0 : PMessage) : List Char → Option PMessage :=
  fun s => if s = stringifyMessage m0 then some m0 else none

/-- A character serialized verbatim by `JSON.stringify`. -/
def plainChar (c : Char) : Prop :=
  32 ≤ c.toNat ∧ c ≠ '"' ∧ c ≠ '\\'

theorem escapeChar_plain {c : Char} (h : plainChar c) : escapeChar c = [c] := by
  obtain ⟨h1, h2, h3⟩ := h
  have hn : c ≠ '\n' := fun hh => absurd (hh ▸ h1) (by decide)
  have hr : c ≠ '\r' := fun hh => absurd (hh ▸ h1) (by decide)
  have ht : c ≠ '\t' := fun hh => absurd (hh ▸ h1) (by decide)
  simp only [escapeChar, if_neg h2, if_neg h3, if_neg hn, if_neg hr, if_neg ht]
  rw [if_neg (by omega), if_neg (by omega), if_neg (by omega)]

theorem quoteStr_plain {s : List Char} (h : ∀ c ∈ s, plainChar c) :
    quoteStr s = '"' :: (s ++ ['"']) := by
  have : (s.map escapeChar).flatten = s := by
    induction s with
    | nil => simp
    | cons c cs ih =>
      simp only [List.map_cons, List.flatten_cons]
      rw [escapeChar_plain (h c (by simp)), ih (fun c2 hc2 => h c2 (by simp [hc2]))]
      simp
  simp [quoteStr, this]

theorem writeAll_no_newline {α : Type} (parse : List Char → Option α) :
    ∀ (chunks : List (List Char)) (b : List Char), '\n' ∉ b →
      jsLength b ≤ MAX_BUFFER_SIZE →
      (∀ ch ∈ chunks, '\n' ∉ ch) →
      (writeAll parse ⟨b⟩ chunks).2.1 = []
      ∧ ((writeAll parse ⟨b⟩ chunks).2.2 = [] →
          jsLength (b ++ chunks.flatten) ≤ MAX_BUFFER_SIZE) := by
  intro chunks
  induction chunks with
  | nil =>
    intro b hb hble hch
    constructor
    · rfl
    · intro _
      simpa using hble
  | cons c cs ih =>
    intro b hb hble hch
    have hbc : '\n' ∉ b ++ c :=
      List.not_mem_append hb (hch c (by simp))
    by_cases hover : jsLength (b ++ c) > MAX_BUFFER_SIZE
    · have hw : decoderWrite parse ⟨b⟩ c = (⟨[]⟩, [], [overflowMsg]) := by
        simp [decoderWrite, hover]
      have hrec := ih [] (by simp) (by simp [jsLength])
        (fun ch hch2 => hch ch (by simp [hch2]))
      simp only [writeAll, hw]
      refine ⟨by simpa using hrec.1, ?_⟩
      intro hcon
      simp at hcon
    · have hw : decoderWrite parse ⟨b⟩ c = (⟨b ++ c⟩, [], []) := by
        simp [decoderWrite, hover, consumeLines_no_newline parse hbc]
      have hrec := ih (b ++ c) hbc (by omega)
        (fun ch hch2 => hch ch (by simp [hch2]))
      simp only [writeAll, hw]
      refine ⟨by simpa using hrec.1, ?_⟩
      intro herr
      simp at herr
      have := hrec.2 herr
      simpa [List.append_assoc] using this

/-- C4 (amended): the decoder enforces its reassembly bound in UTF-16
code units of the buffered string (`buffer.length`), not in bytes.  On
the write that takes the buffered length over 64 Ki units it clears the
buffer, signals the overflow through the error callback, and returns
without scanning the chunk for a newline (no resynchronization); and for
any sequence of newline-free chunks totalling more than 64 Ki units, no
parsed value is ever delivered and the overflow is signalled. -/
theorem decoder_buffer_bound :
    (∀ (α : Type) (parse : List Char → Option α) (b c : List Char),
        jsLength (b ++ c) > MAX_BUFFER_SIZE →
        decoderWrite parse ⟨b⟩ c = (⟨[]⟩, [], [overflowMsg]))
    ∧ (∀ (α : Type) (parse : List Char → Option α)
          (chunks : List (List Char)),
        (∀ ch ∈ chunks, '\n' ∉ ch) →
        jsLength chunks.flatten > MAX_BUFFER_SIZE →
        (writeAll parse ⟨[]⟩ chunks).2.1 = []
        ∧ (writeAll parse ⟨[]⟩ chunks).2.2 ≠ []) := by
  constructor
  · intro α parse b c h
    simp [decoderWrite, h]
  · intro α parse chunks hch hlen
    have h := writeAll_no_newline parse chunks [] (by simp) (by simp [jsLength]) hch
    refine ⟨h.1, ?_⟩
    intro herr
    have := h.2 herr
    simp at this
    omega

/-- Witness for C4 (amended): a single newline-free chunk of 65537 ASCII
characters overflows: nothing is delivered and the error fires. -/
theorem decoder_buffer_bound_witness :
    jsLength (List.flatten [List.replicate 65537 'a']) > MAX_BUFFER_SIZE
    ∧ (∀ ch ∈ [List.replicate 65537 'a'], '\n' ∉ ch)
    ∧ (writeAll (recognizerFor (.abortM "r1".data)) ⟨[]⟩
        [List.replicate 65537 'a']).2.1 = []
    ∧ (writeAll (recognizerFor (.abortM "r1".data)) ⟨[]⟩
        [List.replicate 65537 'a']).2.2 ≠ [] := by
  have hlen : jsLength (List.flatten [List.replicate 65537 'a'])
      > MAX_BUFFER_SIZE := by
    have h1 : List.flatten [List.replicate 65537 'a']
        = List.replicate 65537 'a' := by
      rw [List.flatten_cons, List.flatten_nil, List.append_nil]
    rw [h1, jsLength_replicate]
    decide
  have hch : ∀ ch ∈ [List.replicate 65537 'a'], '\n' ∉ ch := by
    intro ch hch2
    rw [List.mem_singleton] at hch2
    subst hch2
    intro hmem
    rw [List.mem_replicate] at hmem
    exact absurd hmem.2 (by decide)
  have h := decoder_buffer_bound.2 PMessage
    (recognizerFor (.abortM "r1".data)) [List.replicate 65537 'a'] hch hlen
  exact ⟨hlen, hch, h.1, h.2⟩

/-- Counterexample for C4 as stated: 22000 three-byte characters are
66000 UTF-8 bytes — beyond 64 KiB — buffered with no newline, yet the
decoder, which measures `buffer.length` in UTF-16 code units (22000),
neither clears its buffer nor signals overflow. -/
theorem decoder_buffer_bound_counterexample :
    utf8Length (List.replicate 22000 (Char.ofNat 0x20AC)) > MAX_BUFFER_SIZE
    ∧ decoderWrite (recognizerFor (.abortM "r1".data)) ⟨[]⟩
        (List.replicate 22000 (Char.ofNat 0x20AC))
      = (⟨List.replicate 22000 (Char.ofNat 0x20AC)⟩, [], []) := by
  constructor
  · rw [utf8Length_replicate]
    decide
  · have hnl : '\n' ∉ List.replicate 22000 (Char.ofNat 0x20AC) := by
      intro hmem
      rw [List.mem_replicate] at hmem
      exact absurd hmem.2 (by decide)
    have hle : ¬ (jsLength (([] : List Char)
        ++ List.replicate 22000 (Char.ofNat 0x20AC)) > MAX_BUFFER_SIZE) := by
      rw [List.nil_append, jsLength_replicate]
      decide
    simp only [decoderWrite]
    rw [if_neg hle, List.nil_append, consumeLines_no_newline _ hnl]

theorem jsLength_cons (c : Char) (s : List Char) :
    jsLength (c :: s) = utf16Units c + jsLength s := by
  simp [jsLength]

theorem plainChar_ne_newline {c : Char} (h : plainChar c) : c ≠ '\n' :=
  fun hh => absurd (hh ▸ h.1) (by decide)

theorem newline_not_mem_quote_plain {s : List Char}
    (h : ∀ c ∈ s, plainChar c) : '\n' ∉ '"' :: (s ++ ['"']) := by
  intro hmem
  rcases List.mem_cons.mp hmem with h1 | h1
  · exact absurd h1 (by decide)
  · rcases List.mem_append.mp h1 with h2 | h2
    · exact absurd rfl (plainChar_ne_newline (h _ h2)).symm
    · rw [List.mem_singleton] at h2
      exact absurd h2 (by decide)

theorem stringify_chatChunk_plain (rid t : List Char)
    (hr : ∀ c ∈ rid, plainChar c) (ht : ∀ c ∈ t, plainChar c) :
    stringifyMessage (.chatChunk rid t)
      = [lbrace] ++ lit "\"type\":\"chat_chunk\",\"request_id\":"
        ++ ('"' :: (rid ++ ['"'])) ++ lit ",\"payload\":" ++ [lbrace]
        ++ lit "\"text\":" ++ ('"' :: (t ++ ['"'])) ++ [rbrace, rbrace] := by
  rw [stringifyMessage, quoteStr_plain hr, quoteStr_plain ht]

theorem newline_not_mem_stringify_chatChunk (rid t : List Char)
    (hr : ∀ c ∈ rid, plainChar c) (ht : ∀ c ∈ t, plainChar c) :
    '\n' ∉ stringifyMessage (.chatChunk rid t) := by
  rw [stringify_chatChunk_plain rid t hr ht]
  have l1 : '\n' ∉ [lbrace] := by decide
  have l2 : '\n' ∉ lit "\"type\":\"chat_chunk\",\"request_id\":" := by decide
  have l3 := newline_not_mem_quote_plain hr
  have l4 : '\n' ∉ lit ",\"payload\":" := by decide
  have l5 : '\n' ∉ lit "\"text\":" := by decide
  have l6 := newline_not_mem_quote_plain ht
  have l7 : '\n' ∉ [rbrace, rbrace] := by decide
  exact List.not_mem_append (List.not_mem_append (List.not_mem_append
    (List.not_mem_append (List.not_mem_append (List.not_mem_append
      (List.not_mem_append l1 l2) l3) l4) l1) l5) l6) l7

/-- C5 (amended): the codec round-trips under arbitrary chunk boundaries
for every message whose encoded frame fits the decoder's 64 Ki-unit
reassembly bound, and for any concatenation of encoded messages the
delivered sequence equals the encoded sequence in arrival order provided
no write overflows the bound; the restriction is forced by the bound,
which discards oversize frames instead of delivering them. -/
theorem codec_roundtrip_chunked :
    (∀ (α : Type) (parse : List Char → Option α) (stringify : α → List Char)
        (m : α) (chunks : List (List Char)),
        GoodMsg parse stringify m →
        chunks.flatten = encode stringify m →
        jsLength (encode stringify m) ≤ MAX_BUFFER_SIZE →
        writeAll parse ⟨[]⟩ chunks = (⟨[]⟩, [m], []))
    ∧ (∀ (α : Type) (parse : List Char → Option α) (stringify : α → List Char)
        (msgs : List α) (chunks : List (List Char)),
        (∀ m ∈ msgs, GoodMsg parse stringify m) →
        chunks.flatten = (msgs.map (encode stringify)).flatten →
        NoOverflowRun parse ⟨[]⟩ chunks →
        writeAll parse ⟨[]⟩ chunks = (⟨[]⟩, msgs, [])) := by
  constructor
  · intro α parse stringify m chunks hg heq hle
    apply writeAll_stream parse stringify chunks [m] []
    · intro m2 hm2
      rw [List.mem_singleton] at hm2
      subst hm2
      exact hg
    · simp
    · rw [List.nil_append, heq]
      simp [encode]
    · apply noOverflowRun_of_le
      rw [List.nil_append, heq]
      exact hle
  · intro α parse stringify msgs chunks hg heq hno
    apply writeAll_stream parse stringify chunks msgs []
    · exact hg
    · simp
    · rw [List.nil_append, heq]
    · exact hno

/-- Witness for C5 (amended): an `abort` frame split mid-frame into two
chunks decodes to exactly that message. -/
theorem codec_roundtrip_chunked_witness :
    GoodMsg (recognizerFor (.abortM "r1".data)) stringifyMessage
      (.abortM "r1".data)
    ∧ ([(encode stringifyMessage (.abortM "r1".data)).take 5,
        (encode stringifyMessage (.abortM "r1".data)).drop 5] :
        List (List Char)).flatten
      = encode stringifyMessage (.abortM "r1".data)
    ∧ jsLength (encode stringifyMessage (.abortM "r1".data)) ≤ MAX_BUFFER_SIZE
    ∧ writeAll (recognizerFor (.abortM "r1".data)) ⟨[]⟩
        [(encode stringifyMessage (.abortM "r1".data)).take 5,
         (encode stringifyMessage (.abortM "r1".data)).drop 5]
      = (⟨[]⟩, [.abortM "r1".data], []) := by
  have hg : GoodMsg (recognizerFor (.abortM "r1".data)) stringifyMessage
      (.abortM "r1".data) := by
    refine ⟨by decide, by decide, ?_⟩
    simp [recognizerFor]
  have hflat : ([(encode stringifyMessage (.abortM "r1".data)).take 5,
      (encode stringifyMessage (.abortM "r1".data)).drop 5] :
      List (List Char)).flatten
      = encode stringifyMessage (.abortM "r1".data) := by
    rw [List.flatten_cons, List.flatten_cons, List.flatten_nil,
      List.append_nil, List.take_append_drop]
  have hle : jsLength (encode stringifyMessage (.abortM "r1".data))
      ≤ MAX_BUFFER_SIZE := by decide
  exact ⟨hg, hflat, hle,
    codec_roundtrip_chunked.1 PMessage (recognizerFor (.abortM "r1".data))
      stringifyMessage (.abortM "r1".data) _ hg hflat hle⟩

/-- A 70000-character chunk text: its frame exceeds the decoder bound. -/
def bigText : List Char := List.replicate 70000 'a'

/-- A protocol-valid `chat_chunk` message whose encoded frame exceeds the
64 KB reassembly bound. -/
def bigChunk : PMessage := .chatChunk "r1".data bigText

/-- The raw JSON value of `bigChunk` as received on the wire. -/
def bigChunkJson : Json :=
  .obj [("type", .str "chat_chunk".data), ("request_id", .str "r1".data),
        ("payload", .obj [("text", .str bigText)])]

instance (c : Char) : Decidable (plainChar c) := by
  unfold plainChar
  infer_instance

theorem bigText_plain : ∀ c ∈ bigText, plainChar c := by
  intro c hc
  rw [bigText] at hc
  rw [List.eq_of_mem_replicate hc]
  decide

theorem r1_plain : ∀ c ∈ "r1".data, plainChar c := by decide

theorem decoderWrite_overflow {α : Type} (parse : List Char → Option α)
    (st : DecoderState) (c : List Char)
    (h : jsLength (st.buffer ++ c) > MAX_BUFFER_SIZE) :
    decoderWrite parse st c = (⟨[]⟩, [], [overflowMsg]) := by
  show (if jsLength (st.buffer ++ c) > MAX_BUFFER_SIZE
      then ((⟨[]⟩ : DecoderState), ([] : List α), [overflowMsg])
      else (⟨(consumeLines parse (st.buffer ++ c)).2⟩,
        (consumeLines parse (st.buffer ++ c)).1, []))
    = (⟨[]⟩, [], [overflowMsg])
  exact if_pos h

theorem writeAll_single {α : Type} (parse : List Char → Option α)
    (st : DecoderState) (c : List Char) :
    writeAll parse st [c]
    = ((decoderWrite parse st c).1, (decoderWrite parse st c).2.1 ++ [],
       (decoderWrite parse st c).2.2 ++ []) := rfl

/-- Counterexample for C5 as stated: `bigChunk` is a valid message (the
validator accepts its JSON), its serialization satisfies the codec
contract, yet feeding `encode(bigChunk)` to the decoder delivers nothing
— the 64 KB bound discards the frame — so `decode(encode(m))` does not
yield `m` for every valid message. -/
theorem codec_roundtrip_counterexample :
    validateMessage bigChunkJson = .ok bigChunk
    ∧ GoodMsg (recognizerFor bigChunk) stringifyMessage bigChunk
    ∧ writeAll (recognizerFor bigChunk) ⟨[]⟩
        [encode stringifyMessage bigChunk] = (⟨[]⟩, [], [overflowMsg]) := by
  have hval : validateMessage bigChunkJson = .ok bigChunk := rfl
  have hnl : '\n' ∉ stringifyMessage bigChunk :=
    newline_not_mem_stringify_chatChunk "r1".data bigText r1_plain bigText_plain
  have hne : stringifyMessage bigChunk ≠ [] := by
    rw [show bigChunk = .chatChunk "r1".data bigText from rfl,
      stringify_chatChunk_plain "r1".data bigText r1_plain bigText_plain]
    exact List.cons_ne_nil _ _
  have hrec : recognizerFor bigChunk (stringifyMessage bigChunk)
      = some bigChunk := by
    simp [recognizerFor]
  have hover : jsLength (([] : List Char)
      ++ encode stringifyMessage bigChunk) > MAX_BUFFER_SIZE := by
    rw [List.nil_append, encode,
      show bigChunk = .chatChunk "r1".data bigText from rfl,
      stringify_chatChunk_plain "r1".data bigText r1_plain bigText_plain]
    rw [show bigText = List.replicate 70000 'a' from rfl]
    simp only [jsLength_append, jsLength_cons]
    rw [jsLength_replicate]
    decide
  refine ⟨hval, ⟨hnl, hne, hrec⟩, ?_⟩
  rw [writeAll_single,
    decoderWrite_overflow (recognizerFor bigChunk) ⟨[]⟩
      (encode stringifyMessage bigChunk) hover]
  rfl

/-! ## C6: prompt size limit

`validateMessage` pre-checks `payload.prompt.length > MAX_PROMPT_SIZE`
and `StreamingRelay.handleChatStart` checks `payload.prompt.length >
8192`; both read the JS string `.length`, which counts UTF-16 code
units, not UTF-8 bytes. -/

/-- The wire JSON of a `chat_start` message. -/
def chatStartJson (rid prompt : List Char) : Json :=
  .obj [("type", .str "chat_start".data), ("request_id", .str rid),
        ("payload", .obj [("prompt", .str prompt)])]

theorem chatStartJson_envelope (rid prompt : List Char) :
    isValidEnvelope (chatStartJson rid prompt) = true := rfl

theorem toChatStart_chatStartJson (rid prompt : List Char) :
    toChatStart (chatStartJson rid prompt) = some (.chatStart rid prompt) := rfl

theorem promptTooLong_chatStartJson (rid prompt : List Char) :
    promptTooLong (chatStartJson rid prompt)
    = decide (jsLength prompt > 8192) := rfl

theorem validateMessage_chatStart (rid prompt : List Char) :
    validateMessage (chatStartJson rid prompt)
    = if jsLength prompt ≤ 8192 then .ok (.chatStart rid prompt)
      else .err "Prompt exceeds maximum size" := by
  by_cases h : jsLength prompt ≤ 8192
  · rw [if_pos h]
    have hpt : promptTooLong (chatStartJson rid prompt) = false := by
      rw [promptTooLong_chatStartJson]
      simp
      omega
    simp [validateMessage, chatStartJson_envelope, hpt,
      toChatStart_chatStartJson]
    rfl
  · rw [if_neg h]
    have hpt : promptTooLong (chatStartJson rid prompt) = true := by
      rw [promptTooLong_chatStartJson]
      simp
      omega
    simp [validateMessage, chatStartJson_envelope, hpt]

/-- C6 (amended): the prompt limit is 8192 UTF-16 code units of the
prompt string (`prompt.length`), not UTF-8 bytes.  The validator accepts
a well-formed `chat_start` exactly when `jsLength prompt ≤ 8192` and
rejects longer prompts with the prompt-size error; the relay, on a
prompt over 8192 units, answers the request-scoped `BAD_MESSAGE` and
leaves its state — the gate included — untouched. -/
theorem prompt_size_check (rid prompt : List Char) (st : RelayState)
    (s : Nat) (r : String) :
    validateMessage (chatStartJson rid prompt)
      = (if jsLength prompt ≤ 8192 then .ok (.chatStart rid prompt)
         else .err "Prompt exceeds maximum size")
    ∧ (handleChatStart st s r prompt).1
      = (if jsLength prompt > 8192 then st else (handleChatStart st s r prompt).1)
    ∧ (handleChatStart st s r prompt).2
      = (if jsLength prompt > 8192
         then [(s, .error .BAD_MESSAGE "Prompt exceeds maximum size of 8 KB"
            (some r))]
         else (handleChatStart st s r prompt).2) := by
  refine ⟨validateMessage_chatStart rid prompt, ?_, ?_⟩
  · by_cases h : jsLength prompt > 8192
    · rw [if_pos h, handleChatStart, if_pos h]
    · rw [if_neg h]
  · by_cases h : jsLength prompt > 8192
    · rw [if_pos h, handleChatStart, if_pos h]
    · rw [if_neg h]

theorem utf8Length_emoji_replicate :
    utf8Length (List.replicate 2049 (Char.ofNat 0x1F600)) = 8196 := by
  rw [utf8Length_replicate]
  decide

/-- Counterexample for C6 as stated: a prompt of 2049 copies of U+1F600
is 8196 UTF-8 bytes — over the claimed 8192-byte limit — yet the
validator accepts it, because each such code point is 4 UTF-8 bytes but
only 2 UTF-16 units and `prompt.length` is 4098. -/
theorem prompt_size_counterexample :
    utf8Length (List.replicate 2049 (Char.ofNat 0x1F600)) > 8192
    ∧ jsLength (List.replicate 2049 (Char.ofNat 0x1F600)) = 4098
    ∧ validateMessage (chatStartJson "r1".data
        (List.replicate 2049 (Char.ofNat 0x1F600)))
      = .ok (.chatStart "r1".data (List.replicate 2049 (Char.ofNat 0x1F600))) := by
  have hjs : jsLength (List.replicate 2049 (Char.ofNat 0x1F600)) = 4098 := by
    rw [jsLength_replicate]
    decide
  refine ⟨?_, hjs, ?_⟩
  · rw [utf8Length_replicate]
    decide
  · rw [validateMessage_chatStart, if_pos (by rw [hjs]; omega)]

/-! ## C7: handling of invalid inbound frames

`StreamingRelay.handleMessage` (relay.ts 107-127) casts the parsed JSON
to `ProtocolMessage` without running `validateMessage` and switches on
`message.type`: `chat_start` and `abort` dispatch to their handlers, any
other type only logs `console.warn`.  The surrounding `try` catches the
`TypeError`s thrown by property access (`message.type` on `null`,
`payload.prompt.length` on a missing payload or prompt) and answers with
the unscoped `error(BAD_MESSAGE, "Invalid message format")`. -/

/-- The JS value `undefined` in request-id position (a frame whose
`request_id` is absent or not a string).  It is distinct from every wire
string and `JSON.stringify` drops a field holding it; the model reserves
one value of the `String` rid domain for it so the state can record a
gate acquisition by such a frame.  Distinct non-string rids are not
distinguished: each behaves as a value equal to no wire string. -/
def undefinedRid : String := "\x00js-undefined"

/-- The `request_id` read by the destructuring, `none` when the frame
carries no string there (the JS value is then `undefined` or another
non-string). -/
def ridOpt (fields : List (String × Json)) : Option String :=
  match getField fields "request_id" with
  | some (.str rid) => some ⟨rid⟩
  | _ => none

/-- The body of `handleChatStart` after `payload.prompt.length` has been
read without throwing, abstracted over that length: reject over 8192
(the error frame carries the frame's `request_id` value — dropped when
it is not a string), else try the gate, storing the rid value on
success and answering `MODEL_BUSY` on failure. -/
def chatStartSized (st : RelayState) (s : Nat) (rid : Option String)
    (len : Nat) : RelayState × List (Nat × Frame) :=
  if len > 8192 then
    (st, [(s, .error .BAD_MESSAGE "Prompt exceeds maximum size of 8 KB" rid)])
  else
    match st.gate.acquire (rid.getD undefinedRid) with
    | (g2, true) =>
      ({ gate := g2, socketMap := mapSet st.socketMap s (rid.getD undefinedRid),
         controllers := ctlInsert st.controllers (rid.getD undefinedRid) }, [])
    | (_, false) =>
      (st, [(s, .error .MODEL_BUSY "Host is processing another request" rid)])

theorem handleChatStart_as_sized (st : RelayState) (s : Nat) (r : String)
    (p : List Char) :
    handleChatStart st s r p = chatStartSized st s (some r) (jsLength p) := rfl

/-- `StreamingRelay.handleMessage` on the parsed JSON of one frame.
`message.type` on `null` throws (caught: unscoped `BAD_MESSAGE`); on any
non-object it is `undefined`, and a missing, non-string or unknown type
reaches the `default` branch, which only warns.  For `chat_start`,
reading `payload.prompt.length` throws when the payload is not an object
or the prompt is absent or `null` (caught: unscoped `BAD_MESSAGE`); a
string prompt measures its UTF-16 length, an array its element count,
and any other value has no `.length`, so `undefined > 8192` is `false`
and the size gate passes. -/
def relayHandleMessage (st : RelayState) (s : Nat) (raw : Json) :
    RelayState × List (Nat × Frame) :=
  match raw with
  | .null => (st, [(s, .error .BAD_MESSAGE "Invalid message format" none)])
  | .obj fields =>
    match getField fields "type" with
    | some (.str t) =>
      if t = "chat_start".data then
        match (getField fields "payload").bind asObj with
        | none => (st, [(s, .error .BAD_MESSAGE "Invalid message format" none)])
        | some p =>
          match getField p "prompt" with
          | some (.str prompt) => chatStartSized st s (ridOpt fields) (jsLength prompt)
          | some (.arr xs) => chatStartSized st s (ridOpt fields) xs.length
          | some (.num _) | some (.bool _) | some (.obj _) =>
            chatStartSized st s (ridOpt fields) 0
          | some .null | none =>
            (st, [(s, .error .BAD_MESSAGE "Invalid message format" none)])
      else if t = "abort".data then
        handleAbort st s ((ridOpt fields).getD undefinedRid)
      else (st, [])
    | _ => (st, [])
  | _ => (st, [])

/-- Counterexample for C7 as stated: a JSON record whose `type` is none
of the six protocol variants — here `"bogus"`, with a `request_id` — is
answered with NO frame at all: the `default` branch of `handleMessage`
only logs a warning, so no `BAD_MESSAGE` (request-scoped or otherwise)
is emitted. -/
theorem relay_unknown_type_counterexample :
    relayHandleMessage initRelay 0
      (.obj [("type", Json.str "bogus".data), ("request_id", Json.str "r9".data)])
    = (initRelay, []) := rfl

/-- C7 (amended): the Host never runs the validator on inbound frames.
A parsed object whose `type` is any string other than `"chat_start"` or
`"abort"` — unknown strings and the other four protocol variants alike —
is dropped with only a console warning: no frame is emitted, the state
is untouched, and every subsequent event is processed exactly as before
(the session continues).  `BAD_MESSAGE` with text
`"Invalid message format"` is emitted only when property access on the
parsed value throws — a `null` frame, or a `chat_start` without a usable
`payload.prompt` — and that error is always unscoped, even when the
offending frame carried a `request_id`. -/
theorem relay_invalid_message (st : RelayState) (s : Nat)
    (fields : List (String × Json)) (t rid : List Char) (e : REvent)
    (ht : getField fields "type" = some (.str t))
    (hne1 : t ≠ "chat_start".data) (hne2 : t ≠ "abort".data) :
    relayHandleMessage st s (.obj fields) = (st, [])
    ∧ relayExec (relayHandleMessage st s (.obj fields)).1 e = relayExec st e
    ∧ relayHandleMessage st s .null
      = (st, [(s, .error .BAD_MESSAGE "Invalid message format" none)])
    ∧ relayHandleMessage st s
        (.obj [("type", .str "chat_start".data), ("request_id", .str rid)])
      = (st, [(s, .error .BAD_MESSAGE "Invalid message format" none)]) := by
  have h1 : relayHandleMessage st s (.obj fields) = (st, []) := by
    simp [relayHandleMessage, ht, hne1, hne2]
  refine ⟨h1, ?_, rfl, rfl⟩
  rw [h1]

/-- Witness for C7 (amended) at a concrete unknown-type frame. -/
theorem relay_invalid_message_witness :
    relayHandleMessage initRelay 1 (.obj [("type", Json.str "chat_end".data)])
      = (initRelay, [])
    ∧ relayExec (relayHandleMessage initRelay 1
        (.obj [("type", Json.str "chat_end".data)])).1 (.disconnect 0)
      = relayExec initRelay (.disconnect 0)
    ∧ relayHandleMessage initRelay 1 .null
      = (initRelay, [(1, .error .BAD_MESSAGE "Invalid message format" none)])
    ∧ relayHandleMessage initRelay 1
        (.obj [("type", .str "chat_start".data), ("request_id", .str "r9".data)])
      = (initRelay, [(1, .error .BAD_MESSAGE "Invalid message format" none)]) :=
  relay_invalid_message initRelay 1 [("type", Json.str "chat_end".data)]
    "chat_end".data "r9".data (.disconnect 0) rfl (by decide) (by decide)

/-! ## C8: connection cap

`limits.ts` declares `MAX_CLIENTS = 5`, the repository's own swarm test
expects a sixth connection to be answered
`error(CONNECT_FAILED, "Max clients reached")` and closed, and the
networking spec of the repo demands the cap — but the `"connection"`
handler installed by `SwarmServer.start` (swarm.ts 52-68) adds every
socket to `connectedSockets` and hands it to `onConnection`
unconditionally; no branch tests the count. -/

/-- `MAX_CLIENTS` of limits.ts. -/
def MAX_CLIENTS : Nat := 5

/-- The connection supervisor's state: the `connectedSockets` set. -/
structure SwarmState where
  connectedSockets : List Nat
deriving DecidableEq, Repr

/-- The `"connection"` handler of `SwarmServer.start`: `Set.add` the
socket and call `onConnection(socket)`.  Result: new state, frames
written to the incoming socket by the handler (none — there is no
`CONNECT_FAILED` path), and whether the socket was delivered to
`onConnection` (always). -/
def swarmHandleConnection (st : SwarmState) (s : Nat) :
    SwarmState × List (Nat × Frame) × Bool :=
  ({ connectedSockets :=
      if st.connectedSockets.contains s then st.connectedSockets
      else st.connectedSockets ++ [s] },
   [], true)

/-- C8 (code bug): the supervisor enforces no cap.  Every incoming
socket — the handler writes no frame and always delivers the socket to
the relay — is attached regardless of the count; with five peers
attached, a sixth socket is added and the count becomes 6, where the
claim (backed by `limits.ts`, the repo's swarm test and its networking
spec) requires one `error(CONNECT_FAILED, "Max clients reached")`, a
closed socket and a count that stays 5. -/
theorem swarm_no_client_cap (st : SwarmState) (s : Nat) :
    (swarmHandleConnection st s).2.1 = []
    ∧ (swarmHandleConnection st s).2.2 = true
    ∧ (swarmHandleConnection ⟨[0, 1, 2, 3, 4]⟩ 5).1.connectedSockets.length
      = MAX_CLIENTS + 1 := ⟨rfl, rfl, by decide⟩

/-! ## C9, C10: the Client driver

`ProtocolClient` (src/apps/client/src/utils/inputValidation.ts):
`sendChatStart` trims the prompt, rejects an empty result, a trimmed
`.length` over `MAX_PROMPT_SIZE` (UTF-16 code units) or an in-flight
request, and otherwise writes the frame, marks the fresh id active and
arms the `CLIENT_TIMEOUT_MS` timer.  `handleProtocolMessage` dispatches
validated inbound messages; `handleTerminalMessage` clears the request
state on a terminal frame for the active request or on one carrying no
(truthy) `request_id` at all. -/

/-- `CLIENT_TIMEOUT_MS` of limits.ts. -/
def CLIENT_TIMEOUT_MS : Nat := 30000

/-- `MAX_PROMPT_SIZE` of limits.ts. -/
def MAX_PROMPT_SIZE : Nat := 8192

/-- The client's request state: `activeRequestId` and the timeout guard
(`timeoutId`, modelled by the request id it guards and its delay). -/
structure ClientState where
  activeRequestId : Option String
  timeoutId : Option (String × Nat)
deriving DecidableEq, Repr

/-- Truthiness of a JS `string | null | undefined` value: `null`,
`undefined` and `""` are falsy. -/
def jsTruthy : Option String → Bool
  | none => false
  | some s => s ≠ ""

/-- The WhiteSpace and LineTerminator code points `String.prototype.trim`
strips. -/
def isJsWhitespace (c : Char) : Bool :=
  (9 ≤ c.toNat ∧ c.toNat ≤ 13) ∨ c = ' ' ∨ c.toNat = 0xA0 ∨ c.toNat = 0x1680
  ∨ (0x2000 ≤ c.toNat ∧ c.toNat ≤ 0x200A) ∨ c.toNat = 0x2028
  ∨ c.toNat = 0x2029 ∨ c.toNat = 0x202F ∨ c.toNat = 0x205F
  ∨ c.toNat = 0x3000 ∨ c.toNat = 0xFEFF

/-- `prompt.trim()`. -/
def jsTrim (l : List Char) : List Char :=
  ((l.dropWhile isJsWhitespace).reverse.dropWhile isJsWhitespace).reverse

/-- The result value of `sendChatStart`. -/
inductive SendResult
  | okR (requestId : String)
  | errR (error : String)
deriving DecidableEq, Repr

/-- `clearRequestState`: clear the timeout guard, drop the active id. -/
def clearedRequestState : ClientState := ⟨none, none⟩

/-- `startTimeout(requestId)`: replace the timeout guard by a fresh
`CLIENT_TIMEOUT_MS` timer for `requestId`. -/
def startTimeout (st : ClientState) (requestId : String) : ClientState :=
  { st with timeoutId := some (requestId, CLIENT_TIMEOUT_MS) }

/-- `ProtocolClient.sendChatStart`: the state after the call, the lines
written to the transport, and the returned value.  `makeRequestId()`
(always a nonempty `req-...` string) enters as the parameter
`freshId`. -/
def sendChatStart (st : ClientState) (prompt : List Char) (freshId : String) :
    ClientState × List PMessage × SendResult :=
  let sanitized := jsTrim prompt
  if sanitized = [] then (st, [], .errR "Prompt cannot be empty")
  else if jsLength sanitized > MAX_PROMPT_SIZE then
    (st, [], .errR "Prompt exceeds 8 KB limit")
  else if jsTruthy st.activeRequestId then
    (st, [], .errR "A request is already in progress")
  else
    ({ activeRequestId := some freshId,
       timeoutId := some (freshId, CLIENT_TIMEOUT_MS) },
     [.chatStart freshId.data sanitized], .okR freshId)

/-- `ProtocolClient.handleTerminalMessage`: `requestId` is the frame's
`request_id` value, `none` when the frame carries none.  A truthy id
matching the active one clears the request state; a falsy id (absent or
`""`) clears it whenever a request is active; anything else — a truthy
id different from the active one included — leaves the state alone. -/
def handleTerminalMessage (st : ClientState) (requestId : Option String) :
    ClientState :=
  if jsTruthy requestId && requestId == st.activeRequestId then
    clearedRequestState
  else if !jsTruthy requestId && jsTruthy st.activeRequestId then
    clearedRequestState
  else st

/-- `ProtocolClient.handleProtocolMessage`, state part: `chat_chunk` for
the active request re-arms the timer; `chat_end` and `error` run the
terminal handling; everything else only surfaces an event. -/
def handleProtocolMessage (st : ClientState) (m : PMessage) : ClientState :=
  match m with
  | .chatChunk rid _ =>
    if st.activeRequestId == some (String.mk rid) then
      startTimeout st (String.mk rid)
    else st
  | .chatEnd rid _ => handleTerminalMessage st (some (String.mk rid))
  | .errorM rid _ _ => handleTerminalMessage st (rid.map String.mk)
  | _ => st

theorem dropWhile_eq_self_of (p : Char → Bool) (l : List Char)
    (h : ∀ c ∈ l, p c = false) : l.dropWhile p = l := by
  cases l with
  | nil => rfl
  | cons x xs =>
    rw [List.dropWhile_cons, h x (by simp)]
    simp

theorem jsTrim_eq_self {l : List Char}
    (h : ∀ c ∈ l, isJsWhitespace c = false) : jsTrim l = l := by
  rw [jsTrim, dropWhile_eq_self_of _ _ h,
    dropWhile_eq_self_of _ _ (fun c hc => h c (by simpa using hc)),
    List.reverse_reverse]

/-- C9 (amended): `sendChatStart` rejects locally — state untouched,
nothing written, an error result returned — exactly when the prompt is
empty after trimming, or the trimmed prompt's UTF-16 length
(`sanitized.length`) exceeds `MAX_PROMPT_SIZE = 8192`, or a request is
already active (a truthy `activeRequestId`); otherwise it writes one
`chat_start` frame carrying the fresh id and the trimmed prompt, marks
the id active and arms the `CLIENT_TIMEOUT_MS = 30000` ms timer. -/
theorem client_send_chat_start (st : ClientState) (prompt : List Char)
    (freshId : String) :
    if jsTrim prompt = [] ∨ jsLength (jsTrim prompt) > MAX_PROMPT_SIZE
        ∨ jsTruthy st.activeRequestId = true then
      (sendChatStart st prompt freshId).1 = st
      ∧ (sendChatStart st prompt freshId).2.1 = []
      ∧ ∃ e, (sendChatStart st prompt freshId).2.2 = .errR e
    else
      sendChatStart st prompt freshId
      = ({ activeRequestId := some freshId,
           timeoutId := some (freshId, CLIENT_TIMEOUT_MS) },
         [.chatStart freshId.data (jsTrim prompt)], .okR freshId) := by
  by_cases h1 : jsTrim prompt = []
  · rw [if_pos (Or.inl h1)]
    exact ⟨by simp [sendChatStart, h1], by simp [sendChatStart, h1],
      "Prompt cannot be empty", by simp [sendChatStart, h1]⟩
  · by_cases h2 : jsLength (jsTrim prompt) > MAX_PROMPT_SIZE
    · rw [if_pos (Or.inr (Or.inl h2))]
      exact ⟨by simp [sendChatStart, h1, h2], by simp [sendChatStart, h1, h2],
        "Prompt exceeds 8 KB limit", by simp [sendChatStart, h1, h2]⟩
    · by_cases h3 : jsTruthy st.activeRequestId = true
      · rw [if_pos (Or.inr (Or.inr h3))]
        exact ⟨by simp [sendChatStart, h1, h2, h3],
          by simp [sendChatStart, h1, h2, h3],
          "A request is already in progress",
          by simp [sendChatStart, h1, h2, h3]⟩
      · rw [if_neg (by
          intro hc
          rcases hc with hc | hc | hc
          · exact h1 hc
          · exact h2 hc
          · exact h3 hc)]
        simp [sendChatStart, h1, h2, h3]

theorem emoji_not_whitespace :
    ∀ c ∈ List.replicate 2049 (Char.ofNat 0x1F600), isJsWhitespace c = false := by
  intro c hc
  rw [List.eq_of_mem_replicate hc]
  decide

/-- Counterexample for C9 as stated: a prompt of 2049 copies of U+1F600
is 8196 UTF-8 bytes — the claim demands local rejection — yet
`sendChatStart` accepts it (its UTF-16 length is 4098), writes the
frame, marks the request active and arms the timer. -/
theorem client_prompt_utf8_counterexample :
    utf8Length (List.replicate 2049 (Char.ofNat 0x1F600)) > 8192
    ∧ sendChatStart ⟨none, none⟩ (List.replicate 2049 (Char.ofNat 0x1F600)) "c1"
      = ({ activeRequestId := some "c1",
           timeoutId := some ("c1", CLIENT_TIMEOUT_MS) },
         [.chatStart "c1".data (List.replicate 2049 (Char.ofNat 0x1F600))],
         .okR "c1") := by
  have htrim : jsTrim (List.replicate 2049 (Char.ofNat 0x1F600))
      = List.replicate 2049 (Char.ofNat 0x1F600) :=
    jsTrim_eq_self emoji_not_whitespace
  have hne : List.replicate 2049 (Char.ofNat 0x1F600) ≠ ([] : List Char) := by
    intro h
    have h2 := congrArg List.length h
    rw [List.length_replicate, List.length_nil] at h2
    exact absurd h2 (by decide)
  have hlen : ¬ jsLength (List.replicate 2049 (Char.ofNat 0x1F600))
      > MAX_PROMPT_SIZE := by
    rw [jsLength_replicate]
    decide
  constructor
  · rw [utf8Length_replicate]
    decide
  · rw [sendChatStart]
    simp only [htrim]
    rw [if_neg hne, if_neg hlen, if_neg (by decide : ¬ jsTruthy none = true)]

/-- C10: while a request is active, a validated `error` frame that
carries no `request_id` is treated as terminal for the in-flight
request — the active id is cleared and the timeout guard cancelled —
whereas a `chat_end` or `error` frame naming a different (nonempty)
request id leaves the active request and its timer unchanged. -/
theorem client_unscoped_error_terminal (a : String) (tm : Option (String × Nat))
    (b code msg fr : List Char)
    (ha : a ≠ "") (hb : String.mk b ≠ a) (hb2 : String.mk b ≠ "") :
    handleProtocolMessage ⟨some a, tm⟩ (.errorM none code msg)
      = ⟨none, none⟩
    ∧ handleProtocolMessage ⟨some a, tm⟩ (.errorM (some b) code msg)
      = ⟨some a, tm⟩
    ∧ handleProtocolMessage ⟨some a, tm⟩ (.chatEnd b fr)
      = ⟨some a, tm⟩ := by
  refine ⟨?_, ?_, ?_⟩ <;>
    simp [handleProtocolMessage, handleTerminalMessage, jsTruthy,
      clearedRequestState, ha, hb, hb2]

/-- Witness for C10 at concrete states: active request `req-1` with a
running timer; an unscoped `error` clears both, an `error` or `chat_end`
for `r2` changes nothing. -/
theorem client_unscoped_error_terminal_witness :
    handleProtocolMessage ⟨some "req-1", some ("req-1", 30000)⟩
        (.errorM none "MODEL_BUSY".data "busy".data) = ⟨none, none⟩
    ∧ handleProtocolMessage ⟨some "req-1", some ("req-1", 30000)⟩
        (.errorM (some "r2".data) "MODEL_BUSY".data "busy".data)
      = ⟨some "req-1", some ("req-1", 30000)⟩
    ∧ handleProtocolMessage ⟨some "req-1", some ("req-1", 30000)⟩
        (.chatEnd "r2".data "stop".data)
      = ⟨some "req-1", some ("req-1", 30000)⟩ :=
  client_unscoped_error_terminal "req-1" (some ("req-1", 30000)) "r2".data
    "MODEL_BUSY".data "busy".data "stop".data (by decide) (by decide) (by decide)
